import Mathlib

/-!
# A minimal HTTP/1.1 server: wire parser, router, response serializer

Shallow embedding of `app/server.go` and `app/router.go`.

* A Go `string` / `[]byte` is the list of its bytes (`GoString`); `len` is `List.length`.
* A Go run-time panic (index or slice bound out of range) is `none`.
* The standard-library and operating-system functions that the program calls but does not
  define (Unicode lower-casing, gzip, `path.Join`) are fields of `Env`; the file system is
  the explicit state `FS`.
-/

namespace HttpServer

/-! ## Go strings and the `strings` / `bytes` functions used by the program -/

/-- A Go string or byte slice, as the sequence of its bytes. -/
abbrev GoString := List Nat

/-- The bytes of an ASCII string literal of the source text. -/
def lit (s : String) : GoString := s.toList.map Char.toNat

/-- Decimal rendering of a non-negative `int`, as produced by the verb `%d`. -/
def itoa (n : Nat) : GoString := (Nat.toDigits 10 n).map Char.toNat

/-- `strings.HasPrefix(s, prefix)`. -/
def HasPrefix (s pre : GoString) : Bool := pre.isPrefixOf s

/-- Scanning loop of `strings.Split` for a non-empty separator: `skip` counts the bytes of a
separator occurrence still to be consumed, `cur` is the segment being collected. -/
def splitGo (sep : GoString) : Nat → GoString → GoString → List GoString
  | _, cur, [] => [cur]
  | skip + 1, cur, _ :: rest => splitGo sep skip cur rest
  | 0, cur, b :: rest =>
    if sep.isPrefixOf (b :: rest) then cur :: splitGo sep (sep.length - 1) [] rest
    else splitGo sep 0 (cur ++ [b]) rest

/-- `strings.Split(s, sep)` for a non-empty `sep` (every separator of the program is a non-empty
literal): the segments between the non-overlapping occurrences of `sep`, found left to right. -/
def Split (s sep : GoString) : List GoString := splitGo sep 0 [] s

/-- UTF-8 encodings of the one-byte white-space runes of `unicode.IsSpace`
(tab, line feed, vertical tab, form feed, carriage return, space). -/
def space1 : List GoString := [[0x09], [0x0A], [0x0B], [0x0C], [0x0D], [0x20]]

/-- UTF-8 encodings of the two-byte white-space runes U+0085 and U+00A0. -/
def space2 : List GoString := [[0xC2, 0x85], [0xC2, 0xA0]]

/-- UTF-8 encodings of the three-byte white-space runes
U+1680, U+2000 to U+200A, U+2028, U+2029, U+202F, U+205F, U+3000. -/
def space3 : List GoString :=
  [[0xE1, 0x9A, 0x80],
   [0xE2, 0x80, 0x80], [0xE2, 0x80, 0x81], [0xE2, 0x80, 0x82], [0xE2, 0x80, 0x83],
   [0xE2, 0x80, 0x84], [0xE2, 0x80, 0x85], [0xE2, 0x80, 0x86], [0xE2, 0x80, 0x87],
   [0xE2, 0x80, 0x88], [0xE2, 0x80, 0x89], [0xE2, 0x80, 0x8A],
   [0xE2, 0x80, 0xA8], [0xE2, 0x80, 0xA9], [0xE2, 0x80, 0xAF],
   [0xE2, 0x81, 0x9F],
   [0xE3, 0x80, 0x80]]

/-- Width in bytes of the white-space rune whose encoding starts `s`, and `0` when `s` does not
start with one. A first byte of such an encoding is never a UTF-8 continuation byte, so every
match lies on a rune boundary of the decoding done by `strings.Fields`. -/
def spaceWidth (s : GoString) : Nat :=
  if s.take 1 ∈ space1 then 1
  else if s.take 2 ∈ space2 then 2
  else if s.take 3 ∈ space3 then 3
  else 0

/-- Scanning loop of `strings.Fields`: `skip` counts the remaining bytes of a white-space rune,
`cur` is the field being collected; empty fields are not emitted. -/
def fieldsGo : Nat → GoString → GoString → List GoString
  | _, cur, [] => if cur = [] then [] else [cur]
  | skip + 1, cur, _ :: rest => fieldsGo skip cur rest
  | 0, cur, b :: rest =>
    if spaceWidth (b :: rest) = 0 then fieldsGo 0 (cur ++ [b]) rest
    else (if cur = [] then [] else [cur]) ++ fieldsGo (spaceWidth (b :: rest) - 1) [] rest

/-- `strings.Fields(s)`: the maximal runs of `s` without white space (`unicode.IsSpace`). -/
def Fields (s : GoString) : List GoString := fieldsGo 0 [] s

/-- Lower-casing of one ASCII byte. -/
def lowerByte (c : Nat) : Nat := if 65 ≤ c ∧ c ≤ 90 then c + 32 else c

/-- `bytes.Trim(s, cutset)` for an ASCII `cutset`: leading and trailing bytes of the cutset
are removed. -/
def Trim (s cutset : GoString) : GoString :=
  ((s.dropWhile (fun b => decide (b ∈ cutset))).reverse.dropWhile
    (fun b => decide (b ∈ cutset))).reverse

/-! ## Standard library and operating system -/

/-- The library functions the program calls and does not define. -/
structure Env where
  /-- The function `strings.Map(unicode.ToLower, s)`, which `strings.ToLower` applies to a string
  with a byte outside ASCII. -/
  mapToLower : GoString → GoString
  /-- The gzip stream written by `gzip.Writer` for an input, `none` when the writer reports an
  error. -/
  gzip : GoString → Option GoString
  /-- Decompression of a gzip stream; the program never calls it, properties of a compressed body are stated with it. -/
  gunzip : GoString → Option GoString
  /-- The function `path.Join(dir, name)`. -/
  pathJoin : GoString → GoString → GoString

/-- `strings.ToLower(s)`: bytewise on an ASCII string, through the Unicode tables otherwise. -/
def ToLower (env : Env) (s : GoString) : GoString :=
  if s.all (fun c => decide (c < 128)) then s.map lowerByte else env.mapToLower s

/-- Outcome of `os.ReadFile`. -/
inductive ReadResult where
  | ok (content : GoString)
  | notExist
  | failure
  deriving DecidableEq, Repr

/-- File-system state: what `os.ReadFile` returns for each path, the paths on which
`os.WriteFile` reports an error, and what a call of `os.WriteFile` does to the reads of the
paths it was not asked to write. -/
structure FS where
  read : GoString → ReadResult
  writeFails : GoString → Bool
  /-- The value `others path data q` is what the path `q`, other than `path`, reads after
  `os.WriteFile(path, data)` has succeeded: creating a file can change what other paths read,
  for instance the paths below it. -/
  others : GoString → GoString → GoString → ReadResult
  /-- The value `onError path data q` is what the path `q` reads after `os.WriteFile(path, data)`
  has failed: a failed call can leave a truncated file behind. -/
  onError : GoString → GoString → GoString → ReadResult

/-- `os.WriteFile(path, data, 0644)` when it succeeds: `none` on error, otherwise the state in
which `path` holds exactly `data` and every other path reads what `others` says. -/
def FS.write (fs : FS) (path data : GoString) : Option FS :=
  if fs.writeFails path then none
  else some { fs with
    read := (fun q => if q = path then ReadResult.ok data else fs.others path data q) }

/-- The state after `os.WriteFile(path, data, 0644)` has failed. -/
def FS.failedWrite (fs : FS) (path data : GoString) : FS :=
  { fs with read := fs.onError path data }

/-! ## `server.go` -/

def CRLF : GoString := lit "\r\n"

def HTTP_VERSION : GoString := lit "HTTP/1.1"

/-- The map `statusCodes`; a missing key yields the empty string. -/
def statusCodes (code : Nat) : GoString :=
  if code = 200 then lit "OK"
  else if code = 201 then lit "Created"
  else if code = 404 then lit "Not Found"
  else []

/-- The status fragment `fmt.Sprintf(" %d %s", code, statusCodes[code])`. -/
def statusOf (code : Nat) : GoString := lit " " ++ itoa code ++ lit " " ++ statusCodes code

structure HTTPRequest where
  Method : GoString
  Path : GoString
  Version : GoString
  Headers : List GoString
  Body : GoString
  DirectoryPath : GoString
  deriving DecidableEq, Repr

structure HTTPResponse where
  Status : GoString
  Headers : List GoString := []
  Body : GoString := []
  deriving DecidableEq, Repr

/-- `parseRequest(req, directoryPath)`; `none` is a panic of `sections[1 : len(sections)-2]`
or of `params[i]`. -/
def parseRequest (env : Env) (req directoryPath : GoString) : Option HTTPRequest := do
  let sections := Split req CRLF
  let params := Fields (← sections[0]?)
  let body ← sections[sections.length - 1]?
  let headerLines ←
    if sections.length < 3 then none
    else some ((sections.take (sections.length - 2)).drop 1)
  let headers := headerLines.map (ToLower env)
  let method ← params[0]?
  let path ← params[1]?
  let version ← params[2]?
  some { Method := method, Path := path, Version := version, Headers := headers,
         Body := body, DirectoryPath := directoryPath }

/-- `parseResponse(res)`: the writes to the string builder, in order. -/
def parseResponse (res : HTTPResponse) : GoString :=
  let builder : GoString := []
  let builder := builder ++ HTTP_VERSION
  let builder := builder ++ res.Status
  let builder := builder ++ CRLF
  let builder := res.Headers.foldl (fun b header => (b ++ header) ++ CRLF) builder
  let builder := builder ++ CRLF
  builder ++ res.Body

/-! ## `router.go` -/

def GZIP_ENCODING : GoString := lit "gzip"

/-- What a handler does: from the request and the file system, a response and the new file
system, or `none` when it panics. -/
abbrev Handler := HTTPRequest → FS → Option (HTTPResponse × FS)

structure Route where
  pathCondition : GoString → Bool
  handler : Handler

/-- `compress(body)`: the bytes of the gzip writer, `none` for a returned error. -/
def compress (env : Env) (body : GoString) : Option GoString := env.gzip body

/-- How the header loop of `echoHandler` ends. -/
inductive EchoLoop where
  /-- The loop returned the response of a failed compression. -/
  | returned (res : HTTPResponse)
  /-- The loop ran to its end with these values of `body` and `responseHeaders`. -/
  | finished (body : GoString) (responseHeaders : List GoString)
  deriving DecidableEq, Repr

/-- The loop `for _, header := range req.Headers` of `echoHandler`; `none` is the panic of
`headerParts[1]`. -/
def echoLoop (env : Env) : List GoString → GoString → List GoString → Option EchoLoop
  | [], body, responseHeaders => some (EchoLoop.finished body responseHeaders)
  | header :: rest, body, responseHeaders =>
    let headerParts := Split header (lit ": ")
    match headerParts[1]? with
    | none => none
    | some value =>
      let headerValues := Split value (lit ", ")
      if headerParts[0]? = some (lit "accept-encoding") ∧ GZIP_ENCODING ∈ headerValues then
        let responseHeaders := responseHeaders ++ [lit "Content-Encoding: " ++ GZIP_ENCODING]
        match compress env body with
        | none => some (EchoLoop.returned { Status := statusOf 500 })
        | some compressedBody => echoLoop env rest compressedBody responseHeaders
      else echoLoop env rest body responseHeaders

/-- `echoHandler(req)`; `none` is a panic of `strings.Split(req.Path, "/")[2]` or of the loop. -/
def echoHandler (env : Env) (req : HTTPRequest) : Option HTTPResponse := do
  let body ← (Split req.Path (lit "/"))[2]?
  match ← echoLoop env req.Headers body [] with
  | EchoLoop.returned res => some res
  | EchoLoop.finished body responseHeaders =>
    let responseHeaders := responseHeaders ++ [lit "Content-Type: text/plain"]
    let responseHeaders := responseHeaders ++ [lit "Content-Length: " ++ itoa body.length]
    some { Status := statusOf 200, Headers := responseHeaders, Body := body }

/-- The loop of the user-agent route: the value of `userAgent` after it (initially the empty
string); `none` is the panic of `strings.Split(header, ": ")[1]`. -/
def userAgentLoop : List GoString → Option GoString
  | [] => some []
  | header :: rest =>
    if HasPrefix header (lit "user-agent") then (Split header (lit ": "))[1]?
    else userAgentLoop rest

/-- Handler of the third route. -/
def userAgentHandler (req : HTTPRequest) : Option HTTPResponse := do
  let userAgent ← userAgentLoop req.Headers
  some { Status := statusOf 200,
         Headers := [lit "Content-Type: text/plain",
                     lit "Content-Length: " ++ itoa userAgent.length],
         Body := userAgent }

/-- `processFileGetRequest(req)`. -/
def processFileGetRequest (env : Env) (req : HTTPRequest) (fs : FS) : Option HTTPResponse := do
  let filePath := env.pathJoin req.DirectoryPath (← (Split req.Path (lit "/"))[2]?)
  match fs.read filePath with
  | ReadResult.notExist => some { Status := statusOf 404 }
  | ReadResult.failure => some { Status := statusOf 500 }
  | ReadResult.ok file =>
    some { Status := statusOf 200,
           Headers := [lit "Content-Type: application/octet-stream",
                       lit "Content-Length: " ++ itoa file.length],
           Body := file }

/-- `processFilePostRequest(req)`, with the file system after the call. -/
def processFilePostRequest (env : Env) (req : HTTPRequest) (fs : FS) :
    Option (HTTPResponse × FS) := do
  let filePath := env.pathJoin req.DirectoryPath (← (Split req.Path (lit "/"))[2]?)
  match fs.write filePath (Trim req.Body [0]) with
  | none => some ({ Status := statusOf 500 }, fs.failedWrite filePath (Trim req.Body [0]))
  | some fs1 => some ({ Status := statusOf 201 }, fs1)

/-- Handler of the first route. -/
def rootHandler : Handler := fun _ fs => some ({ Status := statusOf 200 }, fs)

/-- Handler of the second route. -/
def echoRouteHandler (env : Env) : Handler := fun req fs =>
  (echoHandler env req).map (fun res => (res, fs))

/-- Handler of the third route, as a route handler. -/
def userAgentRouteHandler : Handler := fun req fs =>
  (userAgentHandler req).map (fun res => (res, fs))

/-- Handler of the fourth route: the `switch req.Method`. -/
def filesHandler (env : Env) : Handler := fun req fs =>
  if req.Method = lit "GET" then (processFileGetRequest env req fs).map (fun res => (res, fs))
  else if req.Method = lit "POST" then processFilePostRequest env req fs
  else some ({ Status := statusOf 404 }, fs)

/-- The route table `router`. -/
def router (env : Env) : List Route :=
  [ { pathCondition := fun path => decide (path = lit "/"), handler := rootHandler },
    { pathCondition := fun path => HasPrefix path (lit "/echo/"),
      handler := echoRouteHandler env },
    { pathCondition := fun path => decide (path = lit "/user-agent"),
      handler := userAgentRouteHandler },
    { pathCondition := fun path => HasPrefix path (lit "/files/"),
      handler := filesHandler env } ]

/-! ## The connection handler -/

/-- The response of the fallback at the end of `handleRequest`. -/
def notFoundResponse : HTTPResponse := { Status := statusOf 404 }

/-- The loop `for _, route := range router` of `handleRequest` followed by the fallback: the
response that is serialized and written. -/
def dispatch : List Route → Handler
  | [], _, fs => some (notFoundResponse, fs)
  | route :: rest, request, fs =>
    if !route.pathCondition request.Path then dispatch rest request fs
    else route.handler request fs

/-- `handleRequest` from the buffer `req` filled by `c.Read`: the bytes passed to
`writeResponse` and the file system afterwards; `none` is a panic. -/
def handleRequest (env : Env) (req directoryPath : GoString) (fs : FS) :
    Option (GoString × FS) := do
  let request ← parseRequest env req directoryPath
  let (response, fs1) ← dispatch (router env) request fs
  some (parseResponse response, fs1)

/-! ## Predicates used to state properties -/

/-- Whether `s` contains the sequence CR LF. -/
def hasCRLF : GoString → Bool
  | [] => false
  | b :: rest => CRLF.isPrefixOf (b :: rest) || hasCRLF rest

/-- Whether `s` contains the encoding of a white-space rune. -/
def hasSpace : GoString → Bool
  | [] => false
  | b :: rest => spaceWidth (b :: rest) != 0 || hasSpace rest

/-- Number of occurrences of CR LF in `s`; two occurrences never overlap. -/
def countCRLF : GoString → Nat
  | [] => 0
  | b :: rest => (if CRLF.isPrefixOf (b :: rest) then 1 else 0) + countCRLF rest

/-- The text of `s` before its first CR LF, all of `s` when it has none. -/
def beforeCRLF : GoString → GoString
  | [] => []
  | b :: rest => if CRLF.isPrefixOf (b :: rest) then [] else b :: beforeCRLF rest

/-- Whether `s` contains an upper-case ASCII letter. -/
def hasUpper (s : GoString) : Bool := s.any (fun b => decide (65 ≤ b ∧ b ≤ 90))

/-- The name of a header line: the text before its first ": ", all of the line when it has
none. -/
def nameOf : GoString → GoString
  | [] => []
  | b :: rest => if (lit ": ").isPrefixOf (b :: rest) then [] else b :: nameOf rest

/-- The value of a header line: all the text after its first ": "; `none` when the line has
no ": ". -/
def valueOf : GoString → Option GoString
  | [] => none
  | b :: rest => if (lit ": ").isPrefixOf (b :: rest) then some (rest.drop 1) else valueOf rest

/-- Whether a header line is an accept-encoding entry whose comma-space separated list of
values contains "gzip": its name is "accept-encoding" and "gzip" is one of the parts of its
value between the separators ", ". -/
def listsGzip (h : GoString) : Bool :=
  decide (nameOf h = lit "accept-encoding")
    && match valueOf h with
       | some value => decide (lit "gzip" ∈ Split value (lit ", "))
       | none => false

/-- The first part of a header line split on ": ", which the handlers take for its name. -/
def headerName (h : GoString) : Option GoString := (Split h (lit ": "))[0]?

/-- The second part of a header line split on ": ", which the handlers take for its value:
the text after the first ": " up to the next ": " when there is one; `none` when the line
has no ": ". -/
def headerValue (h : GoString) : Option GoString := (Split h (lit ": "))[1]?

/-- The test of the loop of `echoHandler` on a header line (router.go, lines 89 to 93):
whether it compresses the body for this header. -/
def loopCompresses (h : GoString) : Bool :=
  match headerName h, headerValue h with
  | some name, some value =>
    decide (name = lit "accept-encoding") && decide (lit "gzip" ∈ Split value (lit ", "))
  | _, _ => false

/-- The headers named Content-Length of a header list. -/
def contentLengthHeaders (headers : List GoString) : List GoString :=
  headers.filter (fun h => HasPrefix h (lit "Content-Length: "))

/-- The property of an outcome of the loop of `echoHandler` used for the Content-Length
invariant: a response returned from inside the loop has an empty body, and the collected
headers hold no Content-Length header. -/
def EchoLoop.noContentLength : EchoLoop → Prop
  | EchoLoop.returned res => res.Body = []
  | EchoLoop.finished _ responseHeaders => contentLengthHeaders responseHeaders = []

/-- Two routes do not both accept the path. -/
def disjointOn (path : GoString) (r1 r2 : Route) : Prop :=
  ¬ (r1.pathCondition path = true ∧ r2.pathCondition path = true)

/-! ## A concrete instance, to evaluate the program on examples -/

/-- A toy instance of the library functions: in a string outside ASCII the ASCII capitals are
lower-cased and every other byte is left as it is, compression prefixes the two magic bytes of
a gzip stream, joining puts a slash between directory and name. -/
def demoEnv : Env where
  mapToLower := fun s => s.map lowerByte
  gzip := fun s => some (0x1f :: 0x8b :: s)
  gunzip := fun s => if [0x1f, 0x8b].isPrefixOf s then some (s.drop 2) else none
  pathJoin := fun d n => d ++ lit "/" ++ n

/-- A file system with no file at all, on which every write succeeds and creates nothing but
the file written. -/
def emptyFS : FS where
  read := fun _ => ReadResult.notExist
  writeFails := fun _ => false
  others := fun _ _ _ => ReadResult.notExist
  onError := fun _ _ _ => ReadResult.notExist

/-- A file system on which every read and every write fails with an input/output error. -/
def faultyFS : FS where
  read := fun _ => ReadResult.failure
  writeFails := fun _ => true
  others := fun _ _ _ => ReadResult.failure
  onError := fun _ _ _ => ReadResult.failure

/-- The empty directory "/srv": no path can be read; the write to "/srv/a/b" fails, there
being no directory "/srv/a"; once a file has been written, the paths below it cannot be read
(not a directory) and every other path is still missing. -/
def srvFS : FS where
  read := fun _ => ReadResult.notExist
  writeFails := fun p => decide (p = lit "/srv/a/b")
  others := fun p _ q =>
    if HasPrefix q (p ++ lit "/") then ReadResult.failure else ReadResult.notExist
  onError := fun _ _ _ => ReadResult.notExist

/-- The file system `emptyFS` after "abc" has been written to "/srv/f". -/
def oneFileFS : FS :=
  { emptyFS with
    read := (fun q => if q = lit "/srv/f" then ReadResult.ok (lit "abc") else emptyFS.read q) }

/-- What the paths of `nestedFS` read. -/
def nestedRead (p : GoString) : ReadResult :=
  if p = lit "/srv/a/b" then ReadResult.ok (lit "B")
  else if p = lit "/srv/a" then ReadResult.failure
  else ReadResult.notExist

/-- A file system with the directory "/srv/a" (reading it is an error, and so is writing it)
and the file "/srv/a/b" of content "B". -/
def nestedFS : FS where
  read := nestedRead
  writeFails := fun p => decide (p = lit "/srv/a")
  others := fun _ _ q => nestedRead q
  onError := fun _ _ q => nestedRead q

/-! ## Serializer -/

theorem foldl_write (sep : GoString) (hs : List GoString) (b : GoString) :
    hs.foldl (fun b header => (b ++ header) ++ sep) b
      = b ++ (hs.map (fun h => h ++ sep)).flatten := by
  induction hs generalizing b with
  | nil => simp
  | cons h t ih =>
    rw [List.foldl_cons, ih]
    simp [List.append_assoc]

/-- The builder of `parseResponse` after all its writes. -/
theorem parseResponse_append (res : HTTPResponse) :
    parseResponse res
      = HTTP_VERSION ++ res.Status ++ CRLF ++ (res.Headers.map (fun h => h ++ CRLF)).flatten
          ++ CRLF ++ res.Body := by
  unfold parseResponse
  simp only [List.nil_append]
  rw [foldl_write]

/-- C1: the serialized response is the version token, the status fragment, CR LF, every header
of the list followed by CR LF in list order, one more CR LF, and the body, with nothing added. -/
theorem parseResponse_bytes (res : HTTPResponse) :
    parseResponse res
      = lit "HTTP/1.1" ++ res.Status ++ lit "\r\n"
          ++ (res.Headers.map (fun h => h ++ lit "\r\n")).flatten
          ++ lit "\r\n" ++ res.Body := by
  unfold parseResponse
  simp only [HTTP_VERSION, CRLF, List.nil_append]
  rw [foldl_write]

/-! ## Splitting on CR LF -/

theorem CRLF_eq : CRLF = [13, 10] := rfl

theorem splitGo_zero_cons (sep cur : GoString) (b : Nat) (rest : GoString) :
    splitGo sep 0 cur (b :: rest)
      = if sep.isPrefixOf (b :: rest) = true then cur :: splitGo sep (sep.length - 1) [] rest
        else splitGo sep 0 (cur ++ [b]) rest := by
  rw [splitGo]

theorem splitGo_crlf_seg (a rest cur : GoString) (h : hasCRLF a = false) :
    splitGo CRLF 0 cur (a ++ CRLF ++ rest) = (cur ++ a) :: splitGo CRLF 0 [] rest := by
  induction a generalizing cur with
  | nil => simp [CRLF_eq, splitGo, List.isPrefixOf]
  | cons x a ih =>
    simp only [hasCRLF, Bool.or_eq_false_iff] at h
    have hx : CRLF.isPrefixOf (x :: (a ++ CRLF ++ rest)) = false := by
      have h1 := h.1
      cases a with
      | nil =>
        simp only [CRLF_eq, List.isPrefixOf] at h1 ⊢
        simp
      | cons y a =>
        simp only [CRLF_eq, List.isPrefixOf] at h1 ⊢
        simpa using h1
    have := ih (cur ++ [x]) h.2
    rw [List.cons_append, List.cons_append, splitGo_zero_cons, hx]
    simpa using this

theorem splitGo_crlf_last (a cur : GoString) (h : hasCRLF a = false) :
    splitGo CRLF 0 cur a = [cur ++ a] := by
  induction a generalizing cur with
  | nil => simp [splitGo]
  | cons x a ih =>
    simp only [hasCRLF, Bool.or_eq_false_iff] at h
    rw [splitGo_zero_cons, h.1]
    simpa using ih (cur ++ [x]) h.2

theorem Split_crlf_seg (a rest : GoString) (h : hasCRLF a = false) :
    Split (a ++ CRLF ++ rest) CRLF = a :: Split rest CRLF := by
  simpa [Split] using splitGo_crlf_seg a rest [] h

theorem Split_crlf_last (a : GoString) (h : hasCRLF a = false) :
    Split a CRLF = [a] := by
  simpa [Split] using splitGo_crlf_last a [] h

/-- Splitting header lines, the blank line and the body. -/
theorem Split_crlf_lines (hs : List GoString) (B : GoString)
    (hh : ∀ h ∈ hs, hasCRLF h = false) (hB : hasCRLF B = false) :
    Split ((hs.map (fun h => h ++ CRLF)).flatten ++ CRLF ++ B) CRLF = hs ++ [[], B] := by
  induction hs with
  | nil =>
    have := Split_crlf_seg [] B rfl
    simpa [Split_crlf_last B hB] using this
  | cons h t ih =>
    have h1 := hh h (List.mem_cons_self _ _)
    have h2 := ih (fun x hx => hh x (List.mem_cons_of_mem _ hx))
    have := Split_crlf_seg h ((t.map (fun h => h ++ CRLF)).flatten ++ CRLF ++ B) h1
    simp only [List.map_cons, List.flatten_cons, List.append_assoc, List.cons_append] at this h2 ⊢
    rw [this, h2]

/-! ## Fields of a request line -/

theorem fieldsGo_zero_cons (cur : GoString) (b : Nat) (rest : GoString) :
    fieldsGo 0 cur (b :: rest)
      = if spaceWidth (b :: rest) = 0 then fieldsGo 0 (cur ++ [b]) rest
        else (if cur = [] then [] else [cur])
          ++ fieldsGo (spaceWidth (b :: rest) - 1) [] rest := by
  rw [fieldsGo]

theorem spaceWidth_space (rest : GoString) : spaceWidth (32 :: rest) = 1 := by
  simp [spaceWidth, space1]

/-- A white-space rune never ends in the byte of a space: appending a space to a string
creates no new match at its start. -/
theorem spaceWidth_append_space (b : Nat) (x rest : GoString)
    (h : spaceWidth (b :: x) = 0) : spaceWidth (b :: x ++ 32 :: rest) = 0 := by
  match x with
  | [] =>
    cases rest <;>
    simp_all [spaceWidth, space1, space2, space3]
  | [c] =>
    simp_all [spaceWidth, space1, space2, space3]
  | c :: d :: x =>
    simp_all [spaceWidth, space1, space2, space3]

theorem fieldsGo_token_space (M rest cur : GoString) (hM : hasSpace M = false)
    (hne : cur ++ M ≠ []) :
    fieldsGo 0 cur (M ++ 32 :: rest) = (cur ++ M) :: fieldsGo 0 [] rest := by
  induction M generalizing cur with
  | nil =>
    have hc : cur ≠ [] := by simpa using hne
    rw [List.nil_append, fieldsGo_zero_cons, spaceWidth_space]
    simp [hc]
  | cons b M ih =>
    simp only [hasSpace, Bool.or_eq_false_iff] at hM
    have h0 : spaceWidth (b :: M) = 0 := by simpa using hM.1
    have h1 := spaceWidth_append_space b M rest h0
    rw [List.cons_append, fieldsGo_zero_cons]
    rw [← List.cons_append, h1]
    simpa using ih (cur ++ [b]) hM.2 (by simp)

theorem fieldsGo_token_end (V cur : GoString) (hV : hasSpace V = false)
    (hne : cur ++ V ≠ []) :
    fieldsGo 0 cur V = [cur ++ V] := by
  induction V generalizing cur with
  | nil =>
    have hc : cur ≠ [] := by simpa using hne
    simp [fieldsGo, hc]
  | cons b V ih =>
    simp only [hasSpace, Bool.or_eq_false_iff] at hV
    have h0 : spaceWidth (b :: V) = 0 := by simpa using hV.1
    rw [fieldsGo_zero_cons, h0]
    simpa using ih (cur ++ [b]) hV.2 (by simp)

/-- The request line `M P V` has exactly the three fields `M`, `P`, `V`. -/
theorem Fields_request_line (M P V : GoString)
    (hM : hasSpace M = false) (hP : hasSpace P = false) (hV : hasSpace V = false)
    (hMne : M ≠ []) (hPne : P ≠ []) (hVne : V ≠ []) :
    Fields (M ++ lit " " ++ P ++ lit " " ++ V) = [M, P, V] := by
  have e : M ++ lit " " ++ P ++ lit " " ++ V = M ++ 32 :: (P ++ 32 :: V) := by
    simp [lit]
  rw [e, Fields, fieldsGo_token_space M _ [] hM (by simpa using hMne),
    fieldsGo_token_space P _ [] hP (by simpa using hPne),
    fieldsGo_token_end V [] hV (by simpa using hVne)]
  simp

/-- A string without white space contains no CR LF. -/
theorem hasCRLF_of_hasSpace (s : GoString) (h : hasSpace s = false) : hasCRLF s = false := by
  induction s with
  | nil => rfl
  | cons b s ih =>
    simp only [hasSpace, Bool.or_eq_false_iff] at h
    simp only [hasCRLF, Bool.or_eq_false_iff]
    refine ⟨?_, ih h.2⟩
    have h0 : spaceWidth (b :: s) = 0 := by simpa using h.1
    have hb : b ≠ 13 := by
      intro hb
      subst hb
      simp [spaceWidth, space1] at h0
    cases s with
    | nil => simp [CRLF_eq, List.isPrefixOf]
    | cons c s =>
      simp only [CRLF_eq, List.isPrefixOf, Bool.and_eq_false_imp, Bool.and_true]
      intro h13
      have e : 13 = b := by simpa using h13
      exact absurd e.symm hb

theorem hasCRLF_append_space (a b : GoString) (ha : hasCRLF a = false)
    (hb : hasCRLF b = false) : hasCRLF (a ++ 32 :: b) = false := by
  induction a with
  | nil => simpa [hasCRLF, CRLF_eq, List.isPrefixOf] using hb
  | cons x a ih =>
    simp only [hasCRLF, Bool.or_eq_false_iff] at ha
    simp only [List.cons_append, hasCRLF, Bool.or_eq_false_iff]
    refine ⟨?_, ih ha.2⟩
    have := ha.1
    cases a <;> simp_all [CRLF_eq, List.isPrefixOf]

/-! ## The wire parser on a well-formed buffer -/

/-- What `parseRequest` computes once the sections of the buffer are known. -/
theorem parseRequest_of_sections (env : Env) (req dir line B : GoString) (hs : List GoString)
    (M P V : GoString) (hsec : Split req CRLF = line :: (hs ++ [[], B]))
    (hf : Fields line = [M, P, V]) :
    parseRequest env req dir
      = some { Method := M, Path := P, Version := V, Headers := hs.map (ToLower env),
               Body := B, DirectoryPath := dir } := by
  have hlen : (line :: (hs ++ [[], B])).length = hs.length + 3 := by simp
  have hlast : (line :: (hs ++ [[], B]))[hs.length + 3 - 1]? = some B := by
    show (line :: (hs ++ [[], B]))[hs.length + 1 + 1]? = some B
    rw [List.getElem?_cons_succ, List.getElem?_append_right (by omega)]
    simp
  have htake : ((line :: (hs ++ [[], B])).take (hs.length + 3 - 2)).drop 1 = hs := by
    simp [List.take_append_eq_append_take]
  unfold parseRequest
  simp only [hsec, hlen, hlast, htake]
  simp [hf]

/-- C2: on a buffer made of a request line `M P V` (three non-empty tokens without white
space), header lines and a body without CR LF, each line ended by CR LF and a blank line before
the body, `parseRequest` returns method `M`, path `P`, version `V`, the header lines lower-cased
in full and in wire order, the body `B` whatever the headers say, and the given directory. -/
theorem parseRequest_wellformed (env : Env) (M P V B dir : GoString) (hs : List GoString)
    (hM : M ≠ [] ∧ hasSpace M = false) (hP : P ≠ [] ∧ hasSpace P = false)
    (hV : V ≠ [] ∧ hasSpace V = false)
    (hh : ∀ h ∈ hs, hasCRLF h = false) (hB : hasCRLF B = false) :
    parseRequest env
        (M ++ lit " " ++ P ++ lit " " ++ V ++ lit "\r\n"
          ++ (hs.map (fun h => h ++ lit "\r\n")).flatten ++ lit "\r\n" ++ B) dir
      = some { Method := M, Path := P, Version := V, Headers := hs.map (ToLower env),
               Body := B, DirectoryPath := dir } := by
  have hline : hasCRLF (M ++ lit " " ++ P ++ lit " " ++ V) = false := by
    have e : M ++ lit " " ++ P ++ lit " " ++ V = M ++ 32 :: (P ++ 32 :: V) := by simp [lit]
    rw [e]
    exact hasCRLF_append_space _ _ (hasCRLF_of_hasSpace M hM.2)
      (hasCRLF_append_space _ _ (hasCRLF_of_hasSpace P hP.2) (hasCRLF_of_hasSpace V hV.2))
  apply parseRequest_of_sections env _ dir (M ++ lit " " ++ P ++ lit " " ++ V) B hs M P V
  · have h1 := Split_crlf_seg (M ++ lit " " ++ P ++ lit " " ++ V)
      ((hs.map (fun h => h ++ CRLF)).flatten ++ CRLF ++ B) hline
    have h2 := Split_crlf_lines hs B hh hB
    rw [h2] at h1
    rw [← h1]
    simp [CRLF, List.append_assoc]
  · exact Fields_request_line M P V hM.2 hP.2 hV.2 hM.1 hP.1 hV.1

theorem parseRequest_wellformed_witness :
    parseRequest demoEnv
        (lit "POST" ++ lit " " ++ lit "/files/a" ++ lit " " ++ lit "HTTP/1.1" ++ lit "\r\n"
          ++ ([lit "Host: X", lit "Content-Length: 7"].map (fun h => h ++ lit "\r\n")).flatten
          ++ lit "\r\n" ++ lit "abc") (lit "/tmp")
      = some { Method := lit "POST", Path := lit "/files/a", Version := lit "HTTP/1.1",
               Headers := [lit "Host: X", lit "Content-Length: 7"].map (ToLower demoEnv),
               Body := lit "abc", DirectoryPath := lit "/tmp" } :=
  parseRequest_wellformed demoEnv (lit "POST") (lit "/files/a") (lit "HTTP/1.1") (lit "abc")
    (lit "/tmp") [lit "Host: X", lit "Content-Length: 7"]
    (by decide) (by decide) (by decide) (by decide) (by decide)

/-! ## The router -/

theorem statusOf_200 : statusOf 200 = lit " 200 OK" := by decide

theorem statusOf_404 : statusOf 404 = lit " 404 Not Found" := by decide

theorem hasPrefix_iff (s pre : GoString) : HasPrefix s pre = true ↔ ∃ t, s = pre ++ t := by
  unfold HasPrefix
  rw [List.isPrefixOf_iff_prefix]
  constructor
  · rintro ⟨t, ht⟩
    exact ⟨t, ht.symm⟩
  · rintro ⟨t, ht⟩
    exact ⟨t, ht.symm⟩

theorem dispatch_skip (pre rest : List Route) (req : HTTPRequest) (fs : FS)
    (hpre : ∀ q ∈ pre, q.pathCondition req.Path = false) :
    dispatch (pre ++ rest) req fs = dispatch rest req fs := by
  induction pre with
  | nil => rfl
  | cons q pre ih =>
    have hq := hpre q (List.mem_cons_self _ _)
    have := ih (fun x hx => hpre x (List.mem_cons_of_mem _ hx))
    simp [dispatch, hq, this]

theorem dispatch_hit (r : Route) (post : List Route) (req : HTTPRequest) (fs : FS)
    (hr : r.pathCondition req.Path = true) :
    dispatch (r :: post) req fs = r.handler req fs := by
  simp [dispatch, hr]

/-- The four predicates of the registered table on a path. -/
theorem router_root (env : Env) (req : HTTPRequest) (fs : FS) (h : req.Path = lit "/") :
    dispatch (router env) req fs = rootHandler req fs := by
  simp [router, dispatch, h]

theorem router_echo (env : Env) (req : HTTPRequest) (fs : FS)
    (h : HasPrefix req.Path (lit "/echo/") = true) :
    dispatch (router env) req fs = echoRouteHandler env req fs := by
  obtain ⟨t, ht⟩ := (hasPrefix_iff _ _).1 h
  have h1 : req.Path ≠ lit "/" := by
    rw [ht]
    simp [lit]
  simp [router, dispatch, h, h1]

theorem router_userAgent (env : Env) (req : HTTPRequest) (fs : FS)
    (h : req.Path = lit "/user-agent") :
    dispatch (router env) req fs = userAgentRouteHandler req fs := by
  have h1 : req.Path ≠ lit "/" := by
    rw [h]
    decide
  have h2 : HasPrefix req.Path (lit "/echo/") = false := by
    rw [h]
    decide
  simp only [router, dispatch, h1, h2]
  simp [h]

theorem router_files (env : Env) (req : HTTPRequest) (fs : FS)
    (h : HasPrefix req.Path (lit "/files/") = true) :
    dispatch (router env) req fs = filesHandler env req fs := by
  obtain ⟨t, ht⟩ := (hasPrefix_iff _ _).1 h
  have h1 : req.Path ≠ lit "/" := by
    rw [ht]
    simp [lit]
  have h2 : HasPrefix req.Path (lit "/echo/") = false := by
    rw [ht]
    simp [lit, HasPrefix, List.isPrefixOf]
  have h3 : req.Path ≠ lit "/user-agent" := by
    rw [ht]
    simp [lit]
  simp only [router, dispatch, h1, h2, h3, h]
  simp

theorem router_none (env : Env) (req : HTTPRequest) (fs : FS)
    (h1 : req.Path ≠ lit "/") (h2 : HasPrefix req.Path (lit "/echo/") = false)
    (h3 : req.Path ≠ lit "/user-agent") (h4 : HasPrefix req.Path (lit "/files/") = false) :
    dispatch (router env) req fs = some (notFoundResponse, fs) := by
  simp only [router, dispatch, h1, h2, h3, h4]
  simp

/-- C3: the dispatch loop returns the result of the handler of the first route of the table
whose predicate holds on the request path, applied to the whole request, whatever routes follow
it; it produces the not-found response when every predicate is false, and only then does it
reach the fallback. On the registered table the path "/" is served by the first route, a path
starting with "/echo/" by the echo handler, "/user-agent" by the user-agent handler and a
path starting with "/files/" by the file handler. -/
theorem dispatch_first_match :
    (∀ (pre post : List Route) (r : Route) (req : HTTPRequest) (fs : FS),
      (∀ q ∈ pre, q.pathCondition req.Path = false) → r.pathCondition req.Path = true →
      dispatch (pre ++ r :: post) req fs = r.handler req fs)
    ∧ (∀ (routes : List Route) (req : HTTPRequest) (fs : FS),
      (∀ q ∈ routes, q.pathCondition req.Path = false) →
      dispatch routes req fs = some (notFoundResponse, fs))
    ∧ (∀ (routes : List Route) (req : HTTPRequest) (fs : FS),
      (∃ q ∈ routes, q.pathCondition req.Path = true) →
      ∃ pre r post, routes = pre ++ r :: post
        ∧ (∀ q ∈ pre, q.pathCondition req.Path = false) ∧ r.pathCondition req.Path = true
        ∧ dispatch routes req fs = r.handler req fs)
    ∧ (∀ (env : Env) (req : HTTPRequest) (fs : FS),
      (req.Path = lit "/" → dispatch (router env) req fs = rootHandler req fs)
      ∧ (HasPrefix req.Path (lit "/echo/") = true →
          dispatch (router env) req fs = (echoHandler env req).map (fun res => (res, fs)))
      ∧ (req.Path = lit "/user-agent" →
          dispatch (router env) req fs = (userAgentHandler req).map (fun res => (res, fs)))
      ∧ (HasPrefix req.Path (lit "/files/") = true →
          dispatch (router env) req fs = filesHandler env req fs)) := by
  refine ⟨?_, ?_, ?_, ?_⟩
  · intro pre post r req fs hpre hr
    rw [dispatch_skip pre _ req fs hpre, dispatch_hit r post req fs hr]
  · intro routes req fs hall
    have := dispatch_skip routes [] req fs hall
    simpa [dispatch] using this
  · intro routes req fs hex
    induction routes with
    | nil => simp at hex
    | cons q routes ih =>
      by_cases hq : q.pathCondition req.Path = true
      · exact ⟨[], q, routes, rfl, by simp, hq, dispatch_hit q routes req fs hq⟩
      · have hq1 : q.pathCondition req.Path = false := by simpa using hq
        obtain ⟨x, hx, hxt⟩ := hex
        have hx1 : x ∈ routes := by
          rcases List.mem_cons.1 hx with e | e
          · rw [e] at hxt
            exact absurd hxt hq
          · exact e
        obtain ⟨pre, r, post, e, hpre, hr, hd⟩ := ih ⟨x, hx1, hxt⟩
        refine ⟨q :: pre, r, post, by rw [e]; rfl, ?_, hr, ?_⟩
        · intro y hy
          rcases List.mem_cons.1 hy with e1 | e1
          · rw [e1]
            exact hq1
          · exact hpre y e1
        · rw [← hd]
          simp [dispatch, hq1]
  · intro env req fs
    exact ⟨fun h => router_root env req fs h, fun h => router_echo env req fs h,
      fun h => router_userAgent env req fs h, fun h => router_files env req fs h⟩

theorem dispatch_first_match_witness :
    dispatch (router demoEnv)
        { Method := lit "GET", Path := lit "/echo/abc", Version := lit "HTTP/1.1",
          Headers := [], Body := [], DirectoryPath := [] } emptyFS
      = (echoHandler demoEnv
          { Method := lit "GET", Path := lit "/echo/abc", Version := lit "HTTP/1.1",
            Headers := [], Body := [], DirectoryPath := [] }).map (fun res => (res, emptyFS)) :=
  (dispatch_first_match.2.2.2 demoEnv _ emptyFS).2.1 (by decide)

/-! ## Route misses and the request method -/

theorem parseResponse_notFound :
    parseResponse notFoundResponse = lit "HTTP/1.1 404 Not Found\r\n\r\n" := by decide

/-- C4: a request whose path is not "/", not "/user-agent" and starts neither with "/echo/"
nor with "/files/" gets, whatever its method, headers and body, the response 404 Not Found
with no header and an empty body, and the bytes written are "HTTP/1.1 404 Not Found" followed
by two CR LF. -/
theorem route_miss_404 (env : Env) (req : HTTPRequest) (fs : FS)
    (h1 : req.Path ≠ lit "/") (h2 : req.Path ≠ lit "/user-agent")
    (h3 : HasPrefix req.Path (lit "/echo/") = false)
    (h4 : HasPrefix req.Path (lit "/files/") = false) :
    dispatch (router env) req fs
        = some ({ Status := lit " 404 Not Found", Headers := [], Body := [] }, fs)
    ∧ parseResponse { Status := lit " 404 Not Found", Headers := [], Body := [] }
        = lit "HTTP/1.1 404 Not Found\r\n\r\n"
    ∧ ∀ buf dir, parseRequest env buf dir = some req →
        handleRequest env buf dir fs = some (lit "HTTP/1.1 404 Not Found\r\n\r\n", fs) := by
  have hd := router_none env req fs h1 h3 h2 h4
  have hn : notFoundResponse = { Status := lit " 404 Not Found", Headers := [], Body := [] } := by
    decide
  refine ⟨by rw [hd, hn], by rw [← hn, parseResponse_notFound], ?_⟩
  intro buf dir hp
  simp [handleRequest, hp, hd, parseResponse_notFound]

theorem route_miss_404_witness :
    dispatch (router demoEnv)
        { Method := lit "DELETE", Path := lit "/echo", Version := lit "HTTP/1.1",
          Headers := [lit "host: x"], Body := lit "abc", DirectoryPath := [] } emptyFS
        = some ({ Status := lit " 404 Not Found", Headers := [], Body := [] }, emptyFS)
    ∧ parseResponse { Status := lit " 404 Not Found", Headers := [], Body := [] }
        = lit "HTTP/1.1 404 Not Found\r\n\r\n"
    ∧ ∀ buf dir, parseRequest demoEnv buf dir
          = some { Method := lit "DELETE", Path := lit "/echo", Version := lit "HTTP/1.1",
                   Headers := [lit "host: x"], Body := lit "abc", DirectoryPath := [] } →
        handleRequest demoEnv buf dir emptyFS
          = some (lit "HTTP/1.1 404 Not Found\r\n\r\n", emptyFS) :=
  route_miss_404 demoEnv _ emptyFS (by decide) (by decide) (by decide) (by decide)

/-- C6, counterexample: a POST request to "/" is answered with 200 OK, not with 404. -/
theorem post_root_is_200 :
    (handleRequest demoEnv (lit "POST / HTTP/1.1\r\n\r\n") [] emptyFS).map (fun p => p.1)
        = some (lit "HTTP/1.1 200 OK\r\n\r\n")
    ∧ (dispatch (router demoEnv)
          { Method := lit "POST", Path := lit "/", Version := lit "HTTP/1.1",
            Headers := [], Body := [], DirectoryPath := [] } emptyFS).map (fun p => p.1.Status)
        ≠ some (statusOf 404) := by
  constructor
  · decide
  · decide

/-- C6, as amended: the 404 response answers a request whose path satisfies none of the four
route predicates, and a request whose path starts with "/files/" with a method other than GET
and POST; on the paths "/", "/user-agent" and "/echo/..." the method is not examined, the
response is the same for every method, and on "/" it is 200 OK. -/
theorem method_and_404 (env : Env) (req : HTTPRequest) (fs : FS) :
    (req.Path ≠ lit "/" → req.Path ≠ lit "/user-agent" →
      HasPrefix req.Path (lit "/echo/") = false → HasPrefix req.Path (lit "/files/") = false →
      dispatch (router env) req fs = some ({ Status := lit " 404 Not Found" }, fs))
    ∧ (HasPrefix req.Path (lit "/files/") = true → req.Method ≠ lit "GET" →
      req.Method ≠ lit "POST" →
      dispatch (router env) req fs = some ({ Status := lit " 404 Not Found" }, fs))
    ∧ (req.Path = lit "/" ∨ req.Path = lit "/user-agent"
        ∨ HasPrefix req.Path (lit "/echo/") = true →
      ∀ m, dispatch (router env) { req with Method := m } fs = dispatch (router env) req fs)
    ∧ (req.Path = lit "/" →
      dispatch (router env) req fs = some ({ Status := lit " 200 OK" }, fs)) := by
  refine ⟨?_, ?_, ?_, ?_⟩
  · intro h1 h2 h3 h4
    rw [router_none env req fs h1 h3 h2 h4, notFoundResponse, statusOf_404]
  · intro h hg hp
    rw [router_files env req fs h]
    simp [filesHandler, hg, hp, statusOf_404]
  · intro h m
    rcases h with h | h | h
    · rw [router_root env req fs h, router_root env _ fs (by simpa using h)]
      rfl
    · rw [router_userAgent env req fs h, router_userAgent env _ fs (by simpa using h)]
      rfl
    · rw [router_echo env req fs h, router_echo env _ fs (by simpa using h)]
      rfl
  · intro h
    rw [router_root env req fs h]
    simp [rootHandler, statusOf_200]

theorem method_and_404_witness :
    dispatch (router demoEnv)
        { Method := lit "DELETE", Path := lit "/files/a", Version := lit "HTTP/1.1",
          Headers := [], Body := [], DirectoryPath := [] } emptyFS
      = some ({ Status := lit " 404 Not Found" }, emptyFS) :=
  (method_and_404 demoEnv _ emptyFS).2.1 (by decide) (by decide) (by decide)

/-! ## Serializing a response and parsing it back -/

/-- C5, counterexample: the header "Content-Type: text/plain" of a serialized response comes
back from the parser as "content-type: text/plain". -/
theorem roundtrip_changes_header_case :
    (parseRequest demoEnv
        (parseResponse { Status := lit " 200 OK", Headers := [lit "Content-Type: text/plain"],
                         Body := lit "hi" }) []).map (fun r => (r.Headers, r.Body))
      = some ([lit "content-type: text/plain"], lit "hi")
    ∧ [lit "content-type: text/plain"] ≠ [lit "Content-Type: text/plain"] := by
  constructor
  · decide
  · decide

theorem hasCRLF_version_append (s : GoString) (h : hasCRLF s = false) :
    hasCRLF (HTTP_VERSION ++ s) = false := by
  cases s with
  | nil => decide
  | cons b s =>
    simp only [hasCRLF, Bool.or_eq_false_iff] at h
    simp [HTTP_VERSION, lit, hasCRLF, CRLF_eq, List.isPrefixOf, h.2]
    simpa [CRLF_eq, List.isPrefixOf] using h.1

/-- C5, as amended: for a response whose status fragment has no CR LF and gives the status
line at least three fields, and whose headers and body have no CR LF, parsing the serialized
response returns a request whose headers are the headers of the response lower-cased, in the
same order, and whose body is the body of the response; the headers come back identical when
lower-casing leaves each of them unchanged. -/
theorem roundtrip_lowercases_headers (env : Env) (res : HTTPResponse) (dir : GoString)
    (hS : hasCRLF res.Status = false) (hF : 3 ≤ (Fields (HTTP_VERSION ++ res.Status)).length)
    (hH : ∀ h ∈ res.Headers, hasCRLF h = false) (hB : hasCRLF res.Body = false) :
    ∃ req, parseRequest env (parseResponse res) dir = some req
      ∧ req.Headers = res.Headers.map (ToLower env) ∧ req.Body = res.Body
      ∧ ((∀ h ∈ res.Headers, ToLower env h = h) → req.Headers = res.Headers) := by
  have hline := hasCRLF_version_append res.Status hS
  have hsec : Split (parseResponse res) CRLF
      = (HTTP_VERSION ++ res.Status) :: (res.Headers ++ [[], res.Body]) := by
    have h1 := Split_crlf_seg (HTTP_VERSION ++ res.Status)
      ((res.Headers.map (fun h => h ++ CRLF)).flatten ++ CRLF ++ res.Body) hline
    rw [Split_crlf_lines res.Headers res.Body hH hB] at h1
    rw [← h1, parseResponse_append]
    simp [List.append_assoc]
  match hf : Fields (HTTP_VERSION ++ res.Status), hF with
  | M :: P :: V :: more, _ =>
    have hlen : ((HTTP_VERSION ++ res.Status) :: (res.Headers ++ [[], res.Body])).length
        = res.Headers.length + 3 := by simp
    have hlast : ((HTTP_VERSION ++ res.Status) :: (res.Headers ++ [[], res.Body]))[
        res.Headers.length + 3 - 1]? = some res.Body := by
      show ((HTTP_VERSION ++ res.Status) :: (res.Headers ++ [[], res.Body]))[
        res.Headers.length + 1 + 1]? = some res.Body
      rw [List.getElem?_cons_succ, List.getElem?_append_right (by omega)]
      simp
    have htake : (((HTTP_VERSION ++ res.Status) :: (res.Headers ++ [[], res.Body])).take
        (res.Headers.length + 3 - 2)).drop 1 = res.Headers := by
      simp [List.take_append_eq_append_take]
    refine ⟨{ Method := M, Path := P, Version := V, Headers := res.Headers.map (ToLower env),
              Body := res.Body, DirectoryPath := dir }, ?_, rfl, rfl, ?_⟩
    · unfold parseRequest
      simp only [hsec, hlen, hlast, htake]
      simp [hf]
    · intro hfix
      show res.Headers.map (ToLower env) = res.Headers
      conv_rhs => rw [← List.map_id res.Headers]
      exact List.map_congr_left (fun h hh => by simpa using hfix h hh)

theorem roundtrip_lowercases_headers_witness :
    ∃ req, parseRequest demoEnv
        (parseResponse { Status := lit " 200 OK",
                         Headers := [lit "Content-Type: text/plain", lit "Content-Length: 2"],
                         Body := lit "hi" }) [] = some req
      ∧ req.Headers
          = [lit "Content-Type: text/plain", lit "Content-Length: 2"].map (ToLower demoEnv)
      ∧ req.Body = lit "hi"
      ∧ ((∀ h ∈ [lit "Content-Type: text/plain", lit "Content-Length: 2"],
            ToLower demoEnv h = h) →
          req.Headers = [lit "Content-Type: text/plain", lit "Content-Length: 2"]) :=
  roundtrip_lowercases_headers demoEnv
    { Status := lit " 200 OK",
      Headers := [lit "Content-Type: text/plain", lit "Content-Length: 2"], Body := lit "hi" }
    [] (by decide) (by decide) (by decide) (by decide)

/-! ## The user-agent route on a parsed request -/

/-- C7, failing input: the value "Curl/8.0" of the header User-Agent is answered with the body
"curl/8.0", and the value "a: b" with the body "a" and Content-Length 1. -/
theorem userAgent_echo_alters_value :
    (handleRequest demoEnv
        (lit "GET /user-agent HTTP/1.1\r\nUser-Agent: Curl/8.0\r\n\r\n") [] emptyFS).map
          (fun p => p.1)
      = some (lit "HTTP/1.1 200 OK\r\nContent-Type: text/plain\r\nContent-Length: 8\r\n\r\ncurl/8.0")
    ∧ (handleRequest demoEnv
        (lit "GET /user-agent HTTP/1.1\r\nUser-Agent: a: b\r\n\r\n") [] emptyFS).map
          (fun p => p.1)
      = some (lit "HTTP/1.1 200 OK\r\nContent-Type: text/plain\r\nContent-Length: 1\r\n\r\na") := by
  constructor
  · decide
  · decide

/-! ## The echo handler -/

theorem splitGo_length_pos (sep : GoString) (k : Nat) (cur s : GoString) :
    0 < (splitGo sep k cur s).length := by
  induction s generalizing k cur with
  | nil => simp [splitGo]
  | cons b s ih =>
    cases k with
    | zero =>
      rw [splitGo_zero_cons]
      split
      · simp
      · exact ih _ _
    | succ k =>
      rw [splitGo]
      exact ih _ _

/-- A line that contains the separator splits into at least two parts. -/
theorem splitGo_length_two (sep a b cur : GoString) (hsep : sep ≠ []) :
    2 ≤ (splitGo sep 0 cur (a ++ sep ++ b)).length := by
  induction a generalizing cur with
  | nil =>
    cases sep with
    | nil => exact absurd rfl hsep
    | cons c sep =>
      rw [List.nil_append, List.cons_append, splitGo_zero_cons]
      have hp : (c :: sep).isPrefixOf (c :: (sep ++ b)) = true := by
        rw [List.isPrefixOf_iff_prefix]
        exact ⟨b, rfl⟩
      rw [if_pos hp]
      have := splitGo_length_pos (c :: sep) ((c :: sep).length - 1) [] (sep ++ b)
      simp only [List.length_cons] at this ⊢
      omega
  | cons x a ih =>
    rw [List.cons_append, List.cons_append, splitGo_zero_cons]
    split
    · have := splitGo_length_pos sep (sep.length - 1) [] (a ++ sep ++ b)
      simp only [List.length_cons]
      omega
    · exact ih _

theorem headerValue_isSome (name value : GoString) :
    ∃ v, headerValue (name ++ lit ": " ++ value) = some v := by
  have h := splitGo_length_two (lit ": ") name value [] (by decide)
  unfold headerValue Split
  cases hs : splitGo (lit ": ") 0 [] (name ++ lit ": " ++ value) with
  | nil =>
    rw [hs] at h
    simp at h
  | cons x l =>
    cases l with
    | nil =>
      rw [hs] at h
      simp at h
    | cons y l => exact ⟨y, by simp⟩

theorem splitGo_slash_head (t cur : GoString) :
    (splitGo [47] 0 cur t)[0]? = some (cur ++ t.takeWhile (fun b => decide (b ≠ 47))) := by
  induction t generalizing cur with
  | nil => simp [splitGo]
  | cons b t ih =>
    rw [splitGo_zero_cons]
    by_cases hb : b = 47
    · subst hb
      simp [List.isPrefixOf]
    · have hp : List.isPrefixOf [47] (b :: t) = false := by
        simp [List.isPrefixOf]
        exact fun e => hb e.symm
      rw [hp]
      simp [ih, hb]

/-- The segment of the path that `echoHandler` takes as the body. -/
theorem echo_path_segment (t : GoString) :
    (Split (lit "/echo/" ++ t) (lit "/"))[2]?
      = some (t.takeWhile (fun b => decide (b ≠ 47))) := by
  have e : lit "/echo/" ++ t = 47 :: 101 :: 99 :: 104 :: 111 :: 47 :: t := rfl
  have e1 : lit "/" = [47] := rfl
  rw [e, e1, Split]
  simp [splitGo_zero_cons, List.isPrefixOf, splitGo_slash_head]

/-- When the loop compresses for none of the headers it changes nothing. -/
theorem echoLoop_plain (env : Env) (hs : List GoString) (body : GoString)
    (rh : List GoString)
    (hform : ∀ h ∈ hs, ∃ name value, h = name ++ lit ": " ++ value)
    (hno : ∀ h ∈ hs, loopCompresses h = false) :
    echoLoop env hs body rh = some (EchoLoop.finished body rh) := by
  induction hs with
  | nil => rfl
  | cons h hs ih =>
    obtain ⟨name, value, e⟩ := hform h (List.mem_cons_self _ _)
    obtain ⟨v, hv⟩ := headerValue_isSome name value
    have hg := hno h (List.mem_cons_self _ _)
    rw [← e] at hv
    have ih1 := ih (fun x hx => hform x (List.mem_cons_of_mem _ hx))
      (fun x hx => hno x (List.mem_cons_of_mem _ hx))
    unfold headerValue at hv
    unfold loopCompresses headerName headerValue at hg
    rw [hv] at hg
    rw [echoLoop]
    simp only [hv]
    cases h0 : (Split h (lit ": "))[0]? with
    | none => simpa using ih1
    | some n =>
      rw [h0] at hg
      simp only [Bool.and_eq_false_iff, decide_eq_false_iff_not] at hg
      have : ¬ (some n = some (lit "accept-encoding") ∧ GZIP_ENCODING ∈ Split v (lit ", ")) := by
        rintro ⟨h1, h2⟩
        rcases hg with hg | hg
        · exact hg (Option.some.inj h1)
        · exact hg h2
      rw [if_neg this]
      exact ih1

/-- When the path is "/echo/" followed by `t`, every header contains ": " and the loop of
`echoHandler` compresses for none of them, the handler returns 200 OK, the body is `t` up to
its first "/" (all of `t` when it has none), and the headers are Content-Type: text/plain and
Content-Length with the decimal length of that body, in this order. -/
theorem echo_plain_response (env : Env) (req : HTTPRequest) (t : GoString)
    (hpath : req.Path = lit "/echo/" ++ t)
    (hform : ∀ h ∈ req.Headers, ∃ name value, h = name ++ lit ": " ++ value)
    (hno : ∀ h ∈ req.Headers, loopCompresses h = false) :
    echoHandler env req
      = some { Status := lit " 200 OK",
               Headers := [lit "Content-Type: text/plain",
                           lit "Content-Length: "
                             ++ itoa (t.takeWhile (fun b => decide (b ≠ 47))).length],
               Body := t.takeWhile (fun b => decide (b ≠ 47)) } := by
  unfold echoHandler
  rw [hpath, echo_path_segment]
  simp [echoLoop_plain env req.Headers _ [] hform hno, statusOf_200]

theorem echo_plain_response_example :
    echoHandler demoEnv
        { Method := lit "GET", Path := lit "/echo/" ++ lit "hello/x", Version := lit "HTTP/1.1",
          Headers := [lit "host" ++ lit ": " ++ lit "a", lit "accept-encoding" ++ lit ": " ++ lit "br"],
          Body := [], DirectoryPath := [] }
      = some { Status := lit " 200 OK",
               Headers := [lit "Content-Type: text/plain",
                           lit "Content-Length: "
                             ++ itoa ((lit "hello/x").takeWhile (fun b => decide (b ≠ 47))).length],
               Body := (lit "hello/x").takeWhile (fun b => decide (b ≠ 47)) } :=
  echo_plain_response demoEnv _ (lit "hello/x") rfl
    (by
      intro h hh
      simp only [List.mem_cons, List.mem_singleton, List.not_mem_nil, or_false] at hh
      rcases hh with e | e
      · exact ⟨lit "host", lit "a", e⟩
      · exact ⟨lit "accept-encoding", lit "br", e⟩)
    (by decide)

/-! ## Content-Length of the responses of the registered routes -/

theorem contentLength_prefix (x : GoString) :
    HasPrefix (lit "Content-Length: " ++ x) (lit "Content-Length: ") = true := by
  rw [hasPrefix_iff]
  exact ⟨x, rfl⟩

/-- The loop of `echoHandler` only ever appends Content-Encoding headers, and a response it
returns by itself has an empty body. -/
theorem echoLoop_inv (env : Env) (hs : List GoString) (body : GoString) (rh : List GoString)
    (out : EchoLoop) (h : echoLoop env hs body rh = some out)
    (hrh : contentLengthHeaders rh = []) :
    out.noContentLength := by
  induction hs generalizing body rh with
  | nil =>
    simp only [echoLoop, Option.some.injEq] at h
    subst h
    exact hrh
  | cons hd hs ih =>
    rw [echoLoop] at h
    cases hv : (Split hd (lit ": "))[1]? with
    | none => simp [hv] at h
    | some v =>
      simp only [hv] at h
      split at h
      · cases hc : compress env body with
        | none =>
          simp only [hc, Option.some.injEq] at h
          subst h
          rfl
        | some z =>
          simp only [hc] at h
          refine ih z _ h ?_
          have e : HasPrefix (lit "Content-Encoding: " ++ GZIP_ENCODING)
              (lit "Content-Length: ") = false := by decide
          simp [contentLengthHeaders, List.filter_append, e] at hrh ⊢
          exact hrh
      · exact ih body rh h hrh

theorem echoHandler_contentLength (env : Env) (req : HTTPRequest) (res : HTTPResponse)
    (h : echoHandler env req = some res) (hb : res.Body ≠ []) :
    contentLengthHeaders res.Headers = [lit "Content-Length: " ++ itoa res.Body.length] := by
  unfold echoHandler at h
  cases hp : (Split req.Path (lit "/"))[2]? with
  | none => simp [hp] at h
  | some body =>
    cases hl : echoLoop env req.Headers body [] with
    | none => simp [hp, hl] at h
    | some out =>
      have inv := echoLoop_inv env req.Headers body [] out hl rfl
      cases out with
      | returned r =>
        simp [hp, hl] at h
        subst h
        exact absurd inv hb
      | finished b rh =>
        simp [hp, hl] at h
        subst h
        have e : HasPrefix (lit "Content-Type: text/plain") (lit "Content-Length: ") = false := by
          decide
        simp only [EchoLoop.noContentLength] at inv
        simp [contentLengthHeaders, List.filter_append, e, contentLength_prefix] at inv ⊢
        exact inv

/-- C9: whenever the response that the registered routes (or the fallback) produce has a
non-empty body, its header list has exactly one Content-Length header, and that header carries
the decimal byte length of the body; this covers the echo handler with and without
compression, the user-agent handler and a successful file read, for every file system and
every outcome of gzip. -/
theorem contentLength_matches_body (env : Env) (req : HTTPRequest) (fs fs1 : FS)
    (res : HTTPResponse) (h : dispatch (router env) req fs = some (res, fs1))
    (hb : res.Body ≠ []) :
    contentLengthHeaders res.Headers = [lit "Content-Length: " ++ itoa res.Body.length] := by
  by_cases h1 : req.Path = lit "/"
  · rw [router_root env req fs h1] at h
    simp [rootHandler] at h
    rw [← h.1] at hb
    exact absurd rfl hb
  by_cases h2 : HasPrefix req.Path (lit "/echo/") = true
  · rw [router_echo env req fs h2] at h
    simp only [echoRouteHandler, Option.map_eq_some', Prod.mk.injEq] at h
    obtain ⟨r, hr, e, _⟩ := h
    subst e
    exact echoHandler_contentLength env req r hr hb
  by_cases h3 : req.Path = lit "/user-agent"
  · rw [router_userAgent env req fs h3] at h
    simp only [userAgentRouteHandler, Option.map_eq_some', Prod.mk.injEq] at h
    obtain ⟨r, hr, e, _⟩ := h
    subst e
    unfold userAgentHandler at hr
    cases hu : userAgentLoop req.Headers with
    | none => simp [hu] at hr
    | some ua =>
      simp [hu] at hr
      subst hr
      have e : HasPrefix (lit "Content-Type: text/plain") (lit "Content-Length: ") = false := by
        decide
      simp [contentLengthHeaders, List.filter_cons, e, contentLength_prefix]
  by_cases h4 : HasPrefix req.Path (lit "/files/") = true
  · rw [router_files env req fs h4] at h
    unfold filesHandler at h
    split at h
    · simp only [Option.map_eq_some', Prod.mk.injEq] at h
      obtain ⟨r, hr, e, _⟩ := h
      subst e
      unfold processFileGetRequest at hr
      cases hp : (Split req.Path (lit "/"))[2]? with
      | none => simp [hp] at hr
      | some name =>
        simp only [hp, Option.bind_eq_bind, Option.some_bind] at hr
        cases hread : fs.read (env.pathJoin req.DirectoryPath name) with
        | notExist =>
          simp [hread] at hr
          subst hr
          exact absurd rfl hb
        | failure =>
          simp [hread] at hr
          subst hr
          exact absurd rfl hb
        | ok file =>
          simp [hread] at hr
          subst hr
          have e : HasPrefix (lit "Content-Type: application/octet-stream")
              (lit "Content-Length: ") = false := by decide
          simp [contentLengthHeaders, List.filter_cons, e, contentLength_prefix]
    · split at h
      · unfold processFilePostRequest at h
        cases hp : (Split req.Path (lit "/"))[2]? with
        | none => simp [hp] at h
        | some name =>
          simp only [hp, Option.bind_eq_bind, Option.some_bind] at h
          cases hw : fs.write (env.pathJoin req.DirectoryPath name) (Trim req.Body [0]) with
          | none =>
            simp [hw] at h
            rw [← h.1] at hb
            exact absurd rfl hb
          | some fs2 =>
            simp [hw] at h
            rw [← h.1] at hb
            exact absurd rfl hb
      · simp at h
        rw [← h.1] at hb
        exact absurd rfl hb
  · have h2f : HasPrefix req.Path (lit "/echo/") = false := by simpa using h2
    have h4f : HasPrefix req.Path (lit "/files/") = false := by simpa using h4
    rw [router_none env req fs h1 h2f h3 h4f] at h
    simp [notFoundResponse] at h
    rw [← h.1] at hb
    exact absurd rfl hb

theorem contentLength_matches_body_witness :
    contentLengthHeaders
        [lit "Content-Encoding: gzip", lit "Content-Type: text/plain", lit "Content-Length: 5"]
      = [lit "Content-Length: " ++ itoa (0x1f :: 0x8b :: lit "abc").length] :=
  contentLength_matches_body demoEnv
    { Method := lit "GET", Path := lit "/echo/abc", Version := lit "HTTP/1.1",
      Headers := [lit "accept-encoding: gzip"], Body := [], DirectoryPath := [] }
    emptyFS emptyFS
    { Status := lit " 200 OK",
      Headers := [lit "Content-Encoding: gzip", lit "Content-Type: text/plain",
                  lit "Content-Length: 5"],
      Body := 0x1f :: 0x8b :: lit "abc" }
    (by rfl) (by decide)

/-! ## The echo handler with compression -/

/-- Headers for which the loop does not compress are passed over by it. -/
theorem echoLoop_skip (env : Env) (hs rest : List GoString) (body : GoString)
    (rh : List GoString)
    (hform : ∀ h ∈ hs, ∃ name value, h = name ++ lit ": " ++ value)
    (hno : ∀ h ∈ hs, loopCompresses h = false) :
    echoLoop env (hs ++ rest) body rh = echoLoop env rest body rh := by
  induction hs with
  | nil => rfl
  | cons h hs ih =>
    obtain ⟨name, value, e⟩ := hform h (List.mem_cons_self _ _)
    obtain ⟨v, hv⟩ := headerValue_isSome name value
    have hg := hno h (List.mem_cons_self _ _)
    rw [← e] at hv
    have ih1 := ih (fun x hx => hform x (List.mem_cons_of_mem _ hx))
      (fun x hx => hno x (List.mem_cons_of_mem _ hx))
    unfold headerValue at hv
    unfold loopCompresses headerName headerValue at hg
    rw [hv] at hg
    rw [List.cons_append, echoLoop]
    simp only [hv]
    cases h0 : (Split h (lit ": "))[0]? with
    | none => simpa using ih1
    | some n =>
      rw [h0] at hg
      simp only [Bool.and_eq_false_iff, decide_eq_false_iff_not] at hg
      have : ¬ (some n = some (lit "accept-encoding") ∧ GZIP_ENCODING ∈ Split v (lit ", ")) := by
        rintro ⟨h1, h2⟩
        rcases hg with hg | hg
        · exact hg (Option.some.inj h1)
        · exact hg h2
      rw [if_neg this]
      exact ih1

/-- A header for which the loop compresses makes it compress the body once. -/
theorem echoLoop_gzip_step (env : Env) (g : GoString) (rest : List GoString)
    (body z : GoString) (rh : List GoString) (hg : loopCompresses g = true)
    (hz : env.gzip body = some z) :
    echoLoop env (g :: rest) body rh
      = echoLoop env rest z (rh ++ [lit "Content-Encoding: gzip"]) := by
  unfold loopCompresses headerName headerValue at hg
  rw [echoLoop]
  cases h0 : (Split g (lit ": "))[0]? with
  | none => simp [h0] at hg
  | some n =>
    cases h1 : (Split g (lit ": "))[1]? with
    | none => simp [h0, h1] at hg
    | some v =>
      simp only [h0, h1, Bool.and_eq_true, decide_eq_true_eq] at hg
      have hc : some n = some (lit "accept-encoding") ∧ GZIP_ENCODING ∈ Split v (lit ", ") :=
        ⟨by rw [hg.1], hg.2⟩
      simp only [if_pos hc, compress, hz]
      rfl

/-- The echo handler when the loop compresses for exactly one header: the body is compressed
once. -/
theorem echo_single_gzip_entry (env : Env) (req : HTTPRequest) (t z g : GoString)
    (hs1 hs2 : List GoString) (hpath : req.Path = lit "/echo/" ++ t) (ht : 47 ∉ t)
    (hH : req.Headers = hs1 ++ g :: hs2)
    (hform : ∀ h ∈ hs1 ++ hs2, ∃ name value, h = name ++ lit ": " ++ value)
    (hno : ∀ h ∈ hs1 ++ hs2, loopCompresses h = false) (hg : loopCompresses g = true)
    (hz : env.gzip t = some z) (hlaw : ∀ x y, env.gzip x = some y → env.gunzip y = some x) :
    echoHandler env req
        = some { Status := lit " 200 OK",
                 Headers := [lit "Content-Encoding: gzip", lit "Content-Type: text/plain",
                             lit "Content-Length: " ++ itoa z.length],
                 Body := z }
      ∧ env.gunzip z = some t := by
  refine ⟨?_, hlaw t z hz⟩
  have htake : t.takeWhile (fun b => decide (b ≠ 47)) = t := by
    rw [List.takeWhile_eq_self_iff]
    intro b hb
    simp only [decide_eq_true_eq]
    intro e
    exact ht (e ▸ hb)
  unfold echoHandler
  rw [hpath, echo_path_segment, htake, hH]
  have s1 := echoLoop_skip env hs1 (g :: hs2) t []
    (fun h hh => hform h (List.mem_append_left _ hh))
    (fun h hh => hno h (List.mem_append_left _ hh))
  have s2 := echoLoop_gzip_step env g hs2 t z [] hg hz
  have s3 := echoLoop_plain env hs2 z ([] ++ [lit "Content-Encoding: gzip"])
    (fun h hh => hform h (List.mem_append_right _ hh))
    (fun h hh => hno h (List.mem_append_right _ hh))
  simp only [Option.bind_eq_bind, Option.some_bind]
  rw [s1, s2, s3]
  simp [statusOf_200]

/-- C10, failing input: with two accept-encoding headers that list gzip, `echoHandler` compresses
the body twice and adds the Content-Encoding header twice; the body is gzip(gzip(t)), and one
decompression of it gives gzip(t). -/
theorem echo_compresses_twice (env : Env) (t z1 z2 : GoString) (ht : 47 ∉ t)
    (h1 : env.gzip t = some z1) (h2 : env.gzip z1 = some z2)
    (hlaw : ∀ x y, env.gzip x = some y → env.gunzip y = some x) :
    echoHandler env
        { Method := lit "GET", Path := lit "/echo/" ++ t, Version := lit "HTTP/1.1",
          Headers := [lit "accept-encoding: gzip", lit "accept-encoding: gzip"],
          Body := [], DirectoryPath := [] }
      = some { Status := lit " 200 OK",
               Headers := [lit "Content-Encoding: gzip", lit "Content-Encoding: gzip",
                           lit "Content-Type: text/plain",
                           lit "Content-Length: " ++ itoa z2.length],
               Body := z2 }
    ∧ env.gunzip z2 = some z1 := by
  refine ⟨?_, hlaw z1 z2 h2⟩
  have htake : t.takeWhile (fun b => decide (b ≠ 47)) = t := by
    rw [List.takeWhile_eq_self_iff]
    intro b hb
    simp only [decide_eq_true_eq]
    intro e
    exact ht (e ▸ hb)
  have hg : loopCompresses (lit "accept-encoding: gzip") = true := by decide
  unfold echoHandler
  simp only [echo_path_segment, htake, Option.bind_eq_bind, Option.some_bind]
  rw [echoLoop_gzip_step env _ _ t z1 [] hg h1, echoLoop_gzip_step env _ _ z1 z2 _ hg h2]
  simp [echoLoop, statusOf_200]

theorem echo_compresses_twice_witness :
    echoHandler demoEnv
        { Method := lit "GET", Path := lit "/echo/" ++ lit "abc", Version := lit "HTTP/1.1",
          Headers := [lit "accept-encoding: gzip", lit "accept-encoding: gzip"],
          Body := [], DirectoryPath := [] }
      = some { Status := lit " 200 OK",
               Headers := [lit "Content-Encoding: gzip", lit "Content-Encoding: gzip",
                           lit "Content-Type: text/plain",
                           lit "Content-Length: "
                             ++ itoa (0x1f :: 0x8b :: 0x1f :: 0x8b :: lit "abc").length],
               Body := 0x1f :: 0x8b :: 0x1f :: 0x8b :: lit "abc" }
    ∧ demoEnv.gunzip (0x1f :: 0x8b :: 0x1f :: 0x8b :: lit "abc")
        = some (0x1f :: 0x8b :: lit "abc") :=
  echo_compresses_twice demoEnv (lit "abc") (0x1f :: 0x8b :: lit "abc")
    (0x1f :: 0x8b :: 0x1f :: 0x8b :: lit "abc") (by decide) rfl rfl
    (by
      intro x y h
      simp only [demoEnv, Option.some.injEq] at h
      subst h
      simp [demoEnv, List.isPrefixOf])

/-! ## The root route and the methods of the file route -/

theorem statusOf_201 : statusOf 201 = lit " 201 Created" := by decide

theorem statusOf_500 : statusOf 500 = lit " 500 " := by decide

/-- C16: a request whose path is exactly "/" gets 200 OK with no header and an empty body,
written as "HTTP/1.1 200 OK" followed by two CR LF, whatever its method, headers, body and
serving directory, and whatever the file system. -/
theorem root_is_200 (env : Env) (req : HTTPRequest) (fs : FS) (h : req.Path = lit "/") :
    dispatch (router env) req fs = some ({ Status := lit " 200 OK", Headers := [], Body := [] }, fs)
    ∧ parseResponse { Status := lit " 200 OK", Headers := [], Body := [] }
        = lit "HTTP/1.1 200 OK\r\n\r\n"
    ∧ ∀ buf dir, parseRequest env buf dir = some req →
        handleRequest env buf dir fs = some (lit "HTTP/1.1 200 OK\r\n\r\n", fs) := by
  have hd : dispatch (router env) req fs
      = some ({ Status := lit " 200 OK", Headers := [], Body := [] }, fs) := by
    rw [router_root env req fs h, rootHandler, statusOf_200]
  have hb : parseResponse { Status := lit " 200 OK", Headers := [], Body := [] }
      = lit "HTTP/1.1 200 OK\r\n\r\n" := by decide
  refine ⟨hd, hb, ?_⟩
  intro buf dir hp
  simp [handleRequest, hp, hd, hb]

theorem root_is_200_witness :
    dispatch (router demoEnv)
        { Method := lit "PUT", Path := lit "/", Version := lit "HTTP/1.1",
          Headers := [lit "accept-encoding: gzip", lit "no separator"], Body := lit "xyz",
          DirectoryPath := lit "/srv" } faultyFS
      = some ({ Status := lit " 200 OK", Headers := [], Body := [] }, faultyFS)
    ∧ parseResponse { Status := lit " 200 OK", Headers := [], Body := [] }
        = lit "HTTP/1.1 200 OK\r\n\r\n"
    ∧ ∀ buf dir, parseRequest demoEnv buf dir
          = some { Method := lit "PUT", Path := lit "/", Version := lit "HTTP/1.1",
                   Headers := [lit "accept-encoding: gzip", lit "no separator"],
                   Body := lit "xyz", DirectoryPath := lit "/srv" } →
        handleRequest demoEnv buf dir faultyFS = some (lit "HTTP/1.1 200 OK\r\n\r\n", faultyFS) :=
  root_is_200 demoEnv _ faultyFS rfl

/-- C15: on a path that starts with "/files/" a method that is neither exactly "GET" nor
exactly "POST" gets 404 Not Found with no header and an empty body; the response is the same
for every file system, and the file system is returned as it was. -/
theorem files_other_method_404 (env : Env) (req : HTTPRequest) (fs : FS)
    (hp : HasPrefix req.Path (lit "/files/") = true)
    (hg : req.Method ≠ lit "GET") (hpost : req.Method ≠ lit "POST") :
    filesHandler env req fs
        = some ({ Status := lit " 404 Not Found", Headers := [], Body := [] }, fs)
    ∧ dispatch (router env) req fs
        = some ({ Status := lit " 404 Not Found", Headers := [], Body := [] }, fs)
    ∧ ∀ fs2 : FS, (dispatch (router env) req fs2).map (fun p => p.1)
        = (dispatch (router env) req fs).map (fun p => p.1) := by
  have hf : ∀ f : FS, filesHandler env req f
      = some ({ Status := lit " 404 Not Found", Headers := [], Body := [] }, f) := by
    intro f
    simp [filesHandler, hg, hpost, statusOf_404]
  refine ⟨hf fs, ?_, ?_⟩
  · rw [router_files env req fs hp, hf fs]
  · intro fs2
    rw [router_files env req fs hp, router_files env req fs2 hp, hf fs, hf fs2]
    rfl

theorem files_other_method_404_witness :
    filesHandler demoEnv
        { Method := lit "get", Path := lit "/files/a", Version := lit "HTTP/1.1",
          Headers := [], Body := lit "data", DirectoryPath := lit "/srv" } nestedFS
        = some ({ Status := lit " 404 Not Found", Headers := [], Body := [] }, nestedFS)
    ∧ dispatch (router demoEnv)
        { Method := lit "get", Path := lit "/files/a", Version := lit "HTTP/1.1",
          Headers := [], Body := lit "data", DirectoryPath := lit "/srv" } nestedFS
        = some ({ Status := lit " 404 Not Found", Headers := [], Body := [] }, nestedFS)
    ∧ ∀ fs2 : FS, (dispatch (router demoEnv)
        { Method := lit "get", Path := lit "/files/a", Version := lit "HTTP/1.1",
          Headers := [], Body := lit "data", DirectoryPath := lit "/srv" } fs2).map
            (fun p => p.1)
        = (dispatch (router demoEnv)
            { Method := lit "get", Path := lit "/files/a", Version := lit "HTTP/1.1",
              Headers := [], Body := lit "data", DirectoryPath := lit "/srv" } nestedFS).map
                (fun p => p.1) :=
  files_other_method_404 demoEnv _ nestedFS (by decide) (by decide) (by decide)

/-! ## The status fragments of the responses -/

theorem echoLoop_status (env : Env) (hs : List GoString) (body : GoString)
    (rh : List GoString) (res : HTTPResponse)
    (h : echoLoop env hs body rh = some (EchoLoop.returned res)) :
    res.Status = statusOf 500 := by
  induction hs generalizing body rh with
  | nil => simp [echoLoop] at h
  | cons hd hs ih =>
    rw [echoLoop] at h
    cases hv : (Split hd (lit ": "))[1]? with
    | none => simp [hv] at h
    | some v =>
      simp only [hv] at h
      split at h
      · cases hc : compress env body with
        | none =>
          simp only [hc, Option.some.injEq, EchoLoop.returned.injEq] at h
          rw [← h]
        | some z =>
          simp only [hc] at h
          exact ih z _ h
      · exact ih body rh h

/-- Every response of the registered routes and of the fallback carries one of the four
status fragments that `fmt.Sprintf` builds from the codes 200, 201, 404 and 500. -/
theorem response_status (env : Env) (req : HTTPRequest) (fs fs1 : FS) (res : HTTPResponse)
    (h : dispatch (router env) req fs = some (res, fs1)) :
    res.Status = lit " 200 OK" ∨ res.Status = lit " 201 Created"
      ∨ res.Status = lit " 404 Not Found" ∨ res.Status = lit " 500 " := by
  rw [← statusOf_200, ← statusOf_201, ← statusOf_404, ← statusOf_500]
  by_cases h1 : req.Path = lit "/"
  · rw [router_root env req fs h1] at h
    simp [rootHandler] at h
    rw [← h.1]
    exact Or.inl rfl
  by_cases h2 : HasPrefix req.Path (lit "/echo/") = true
  · rw [router_echo env req fs h2] at h
    simp only [echoRouteHandler, Option.map_eq_some', Prod.mk.injEq] at h
    obtain ⟨r, hr, e, _⟩ := h
    subst e
    unfold echoHandler at hr
    cases hp : (Split req.Path (lit "/"))[2]? with
    | none => simp [hp] at hr
    | some body =>
      cases hl : echoLoop env req.Headers body [] with
      | none => simp [hp, hl] at hr
      | some out =>
        cases out with
        | returned r1 =>
          simp [hp, hl] at hr
          subst hr
          exact Or.inr (Or.inr (Or.inr (echoLoop_status env _ _ _ _ hl)))
        | finished b rh =>
          simp [hp, hl] at hr
          subst hr
          exact Or.inl rfl
  by_cases h3 : req.Path = lit "/user-agent"
  · rw [router_userAgent env req fs h3] at h
    simp only [userAgentRouteHandler, Option.map_eq_some', Prod.mk.injEq] at h
    obtain ⟨r, hr, e, _⟩ := h
    subst e
    unfold userAgentHandler at hr
    cases hu : userAgentLoop req.Headers with
    | none => simp [hu] at hr
    | some ua =>
      simp [hu] at hr
      subst hr
      exact Or.inl rfl
  by_cases h4 : HasPrefix req.Path (lit "/files/") = true
  · rw [router_files env req fs h4] at h
    unfold filesHandler at h
    split at h
    · simp only [Option.map_eq_some', Prod.mk.injEq] at h
      obtain ⟨r, hr, e, _⟩ := h
      subst e
      unfold processFileGetRequest at hr
      cases hp : (Split req.Path (lit "/"))[2]? with
      | none => simp [hp] at hr
      | some name =>
        simp only [hp, Option.bind_eq_bind, Option.some_bind] at hr
        cases hread : fs.read (env.pathJoin req.DirectoryPath name) with
        | notExist =>
          simp [hread] at hr
          subst hr
          exact Or.inr (Or.inr (Or.inl rfl))
        | failure =>
          simp [hread] at hr
          subst hr
          exact Or.inr (Or.inr (Or.inr rfl))
        | ok file =>
          simp [hread] at hr
          subst hr
          exact Or.inl rfl
    · split at h
      · unfold processFilePostRequest at h
        cases hp : (Split req.Path (lit "/"))[2]? with
        | none => simp [hp] at h
        | some name =>
          simp only [hp, Option.bind_eq_bind, Option.some_bind] at h
          cases hw : fs.write (env.pathJoin req.DirectoryPath name) (Trim req.Body [0]) with
          | none =>
            simp [hw] at h
            rw [← h.1]
            exact Or.inr (Or.inr (Or.inr rfl))
          | some fs2 =>
            simp [hw] at h
            rw [← h.1]
            exact Or.inr (Or.inl rfl)
      · simp at h
        rw [← h.1]
        exact Or.inr (Or.inr (Or.inl rfl))
  · have h2f : HasPrefix req.Path (lit "/echo/") = false := by simpa using h2
    have h4f : HasPrefix req.Path (lit "/files/") = false := by simpa using h4
    rw [router_none env req fs h1 h2f h3 h4f] at h
    simp [notFoundResponse] at h
    rw [← h.1]
    exact Or.inr (Or.inr (Or.inl rfl))

/-- C11, failing input: when reading the file fails with an error other than a missing file,
the status fragment is " 500 " with an empty reason phrase, because `statusCodes` has no
entry for 500, and the bytes written are "HTTP/1.1 500 " followed by two CR LF; the same
holds for a POST whose write fails. -/
theorem status_500_has_no_reason :
    (handleRequest demoEnv (lit "GET /files/a HTTP/1.1\r\n\r\n") (lit "/srv") nestedFS).map
        (fun p => p.1) = some (lit "HTTP/1.1 500 \r\n\r\n")
    ∧ (handleRequest demoEnv (lit "POST /files/a HTTP/1.1\r\n\r\nabc") (lit "/srv")
        nestedFS).map (fun p => p.1) = some (lit "HTTP/1.1 500 \r\n\r\n")
    ∧ statusCodes 500 = []
    ∧ statusOf 500 = lit " " ++ lit "500" ++ lit " " ++ [] := by
  refine ⟨by decide, by decide, by decide, by decide⟩

/-! ## The file route -/

/-- The segment of the path that the file handlers join to the serving directory. -/
theorem files_path_segment (name : GoString) :
    (Split (lit "/files/" ++ name) (lit "/"))[2]?
      = some (name.takeWhile (fun b => decide (b ≠ 47))) := by
  have e : lit "/files/" ++ name = 47 :: 102 :: 105 :: 108 :: 101 :: 115 :: 47 :: name := rfl
  have e1 : lit "/" = [47] := rfl
  rw [e, e1, Split]
  simp [splitGo_zero_cons, List.isPrefixOf, splitGo_slash_head]

theorem takeWhile_no_slash (name : GoString) (h : 47 ∉ name) :
    name.takeWhile (fun b => decide (b ≠ 47)) = name := by
  rw [List.takeWhile_eq_self_iff]
  intro b hb
  simp only [decide_eq_true_eq]
  intro e
  exact h (e ▸ hb)

/-- A byte string is its part without trailing null bytes followed by null bytes only. -/
theorem rdropWhile_nul (l : GoString) :
    ∃ k, l = l.rdropWhile (fun b => decide (b ∈ [0])) ++ List.replicate k 0
      ∧ (l.rdropWhile (fun b => decide (b ∈ [0]))).getLast? ≠ some 0 := by
  induction l using List.reverseRecOn with
  | nil => exact ⟨0, by simp, by simp⟩
  | append_singleton l x ih =>
    obtain ⟨k, hk, hlast⟩ := ih
    by_cases hx : x = 0
    · subst hx
      rw [List.rdropWhile_concat_pos _ _ _ (by simp)]
      refine ⟨k + 1, ?_, hlast⟩
      rw [List.replicate_succ', ← List.append_assoc, ← hk]
    · rw [List.rdropWhile_concat_neg _ _ _ (by simpa using hx)]
      refine ⟨0, by simp, ?_⟩
      rw [List.getLast?_concat]
      intro e
      exact hx (Option.some.inj e)

/-- On a body that does not begin with a null byte `bytes.Trim` removes trailing bytes only. -/
theorem Trim_nul (body : GoString) (hb : body.head? ≠ some 0) :
    Trim body [0] = body.rdropWhile (fun b => decide (b ∈ [0])) := by
  unfold Trim
  cases body with
  | nil => rfl
  | cons b rest =>
    have hb0 : b ≠ 0 := by
      intro e
      exact hb (by rw [e]; rfl)
    have : (b :: rest).dropWhile (fun b => decide (b ∈ [0])) = b :: rest := by
      rw [List.dropWhile_cons]
      simp [hb0]
    rw [this]
    rfl

/-- On a body of null bytes only `bytes.Trim` leaves nothing, as removing the trailing null
bytes does. -/
theorem Trim_all_nul (body : GoString) (hb : ∀ b ∈ body, b = 0) :
    Trim body [0] = body.rdropWhile (fun b => decide (b ∈ [0])) := by
  have h1 : body.dropWhile (fun b => decide (b ∈ [0])) = [] := by
    rw [List.dropWhile_eq_nil_iff]
    intro b hbm
    simp [hb b hbm]
  have h2 : body.rdropWhile (fun b => decide (b ∈ [0])) = [] := by
    rw [List.rdropWhile_eq_nil_iff]
    intro b hbm
    simp [hb b hbm]
  unfold Trim
  rw [h1, h2]
  rfl

theorem filesHandler_get (env : Env) (req : HTTPRequest) (fs : FS) (name : GoString)
    (hm : req.Method = lit "GET") (hp : req.Path = lit "/files/" ++ name) :
    dispatch (router env) req fs
      = some (match fs.read (env.pathJoin req.DirectoryPath
                  (name.takeWhile (fun b => decide (b ≠ 47)))) with
              | ReadResult.notExist => { Status := statusOf 404 }
              | ReadResult.failure => { Status := statusOf 500 }
              | ReadResult.ok file =>
                { Status := statusOf 200,
                  Headers := [lit "Content-Type: application/octet-stream",
                              lit "Content-Length: " ++ itoa file.length],
                  Body := file }, fs) := by
  have hpre : HasPrefix req.Path (lit "/files/") = true := (hasPrefix_iff _ _).2 ⟨name, hp⟩
  rw [router_files env req fs hpre]
  unfold filesHandler processFileGetRequest
  rw [if_pos hm, hp, files_path_segment]
  simp only [Option.bind_eq_bind, Option.some_bind]
  cases fs.read (env.pathJoin req.DirectoryPath (name.takeWhile (fun b => decide (b ≠ 47))))
    <;> rfl

theorem filesHandler_post (env : Env) (req : HTTPRequest) (fs : FS) (name : GoString)
    (hm : req.Method = lit "POST") (hp : req.Path = lit "/files/" ++ name) :
    dispatch (router env) req fs
      = match fs.write (env.pathJoin req.DirectoryPath
                  (name.takeWhile (fun b => decide (b ≠ 47)))) (Trim req.Body [0]) with
        | none => some ({ Status := statusOf 500 },
            fs.failedWrite (env.pathJoin req.DirectoryPath
              (name.takeWhile (fun b => decide (b ≠ 47)))) (Trim req.Body [0]))
        | some fs1 => some ({ Status := statusOf 201 }, fs1) := by
  have hpre : HasPrefix req.Path (lit "/files/") = true := (hasPrefix_iff _ _).2 ⟨name, hp⟩
  have hg : req.Method ≠ lit "GET" := by
    rw [hm]
    decide
  rw [router_files env req fs hpre]
  unfold filesHandler processFilePostRequest
  rw [if_neg hg, if_pos hm, hp, files_path_segment]
  simp only [Option.bind_eq_bind, Option.some_bind]

/-! ## Reading and writing files -/

/-- C12, counterexample: for the path "/files/a/b" the handler reads "/srv/a", the join of
the directory with the first segment "a", and answers 500 because that is a directory,
although the join of the directory with "a/b" is a readable file. -/
theorem get_reads_first_segment_only :
    (dispatch (router demoEnv)
        { Method := lit "GET", Path := lit "/files/" ++ lit "a/b", Version := lit "HTTP/1.1",
          Headers := [], Body := [], DirectoryPath := lit "/srv" } nestedFS).map (fun p => p.1)
      = some { Status := statusOf 500, Headers := [], Body := [] }
    ∧ nestedFS.read (demoEnv.pathJoin (lit "/srv") (lit "a/b")) = ReadResult.ok (lit "B") := by
  constructor
  · decide
  · decide

/-- C12, as amended: for a GET request on the path "/files/" followed by `name`, the handler
reads the join of the serving directory with `name` up to its first "/" (all of `name` when
it has none); it returns 404 with no header and no body when the file does not exist, the
500 response with no header and no body on any other read error, and on success 200 OK with
the headers Content-Type: application/octet-stream and Content-Length of the content, and
the whole content as body. The file system is left as it was. -/
theorem get_file (env : Env) (req : HTTPRequest) (fs : FS) (name : GoString)
    (hm : req.Method = lit "GET") (hp : req.Path = lit "/files/" ++ name) :
    (fs.read (env.pathJoin req.DirectoryPath (name.takeWhile (fun b => decide (b ≠ 47))))
        = ReadResult.notExist →
      dispatch (router env) req fs
        = some ({ Status := lit " 404 Not Found", Headers := [], Body := [] }, fs))
    ∧ (fs.read (env.pathJoin req.DirectoryPath (name.takeWhile (fun b => decide (b ≠ 47))))
        = ReadResult.failure →
      dispatch (router env) req fs
        = some ({ Status := statusOf 500, Headers := [], Body := [] }, fs))
    ∧ (∀ content,
      fs.read (env.pathJoin req.DirectoryPath (name.takeWhile (fun b => decide (b ≠ 47))))
        = ReadResult.ok content →
      dispatch (router env) req fs
        = some ({ Status := lit " 200 OK",
                  Headers := [lit "Content-Type: application/octet-stream",
                              lit "Content-Length: " ++ itoa content.length],
                  Body := content }, fs)) := by
  have h := filesHandler_get env req fs name hm hp
  refine ⟨?_, ?_, ?_⟩
  · intro hr
    rw [h, hr, statusOf_404]
  · intro hr
    rw [h, hr]
  · intro content hr
    rw [h, hr, statusOf_200]

theorem get_file_witness :
    dispatch (router demoEnv)
        { Method := lit "GET", Path := lit "/files/" ++ lit "a/b", Version := lit "HTTP/1.1",
          Headers := [], Body := [], DirectoryPath := lit "/srv" } nestedFS
      = some ({ Status := statusOf 500, Headers := [], Body := [] }, nestedFS) :=
  (get_file demoEnv _ nestedFS (lit "a/b") rfl rfl).2.1 (by decide)

/-- C13, counterexample: in the empty directory "/srv" a POST on "/files/a/b" answers 201
and writes the file "/srv/a", although the write to "/srv/a/b", the join of the directory
with the whole name, fails there; a POST on "/files/f" whose body is a null byte, "x" and a
null byte writes the content "x", without the leading null byte. -/
theorem post_path_and_leading_nul :
    (dispatch (router demoEnv)
        { Method := lit "POST", Path := lit "/files/" ++ lit "a/b", Version := lit "HTTP/1.1",
          Headers := [], Body := lit "x", DirectoryPath := lit "/srv" } srvFS).map
          (fun p => (p.1, p.2.read (lit "/srv/a")))
      = some ({ Status := lit " 201 Created", Headers := [], Body := [] },
              ReadResult.ok (lit "x"))
    ∧ demoEnv.pathJoin (lit "/srv") (lit "a/b") = lit "/srv/a/b"
    ∧ srvFS.writeFails (lit "/srv/a/b") = true
    ∧ (dispatch (router demoEnv)
        { Method := lit "POST", Path := lit "/files/" ++ lit "f", Version := lit "HTTP/1.1",
          Headers := [], Body := 0 :: lit "x" ++ [0], DirectoryPath := lit "/srv" }
          srvFS).map (fun p => (p.1, p.2.read (lit "/srv/f")))
      = some ({ Status := lit " 201 Created", Headers := [], Body := [] },
              ReadResult.ok (lit "x")) := by
  refine ⟨by decide, by decide, by decide, by decide⟩

/-- C13, as amended: for a POST request on the path "/files/" followed by `name` whose body
does not begin with a null byte, or is made of null bytes only, the handler writes to the
join of the serving directory with `name` up to its first "/" the body without its trailing
null bytes and with every other byte kept; when the write succeeds it returns 201 Created
with no header and an empty body and the file holds exactly that content, whatever it held
before; when the write fails it returns the 500 response with no header and no body. -/
theorem post_file (env : Env) (req : HTTPRequest) (fs : FS) (name : GoString)
    (hm : req.Method = lit "POST") (hp : req.Path = lit "/files/" ++ name)
    (hb : req.Body.head? ≠ some 0 ∨ ∀ b ∈ req.Body, b = 0) :
    ∃ data k, req.Body = data ++ List.replicate k 0 ∧ data.getLast? ≠ some 0
      ∧ (fs.writeFails (env.pathJoin req.DirectoryPath
            (name.takeWhile (fun b => decide (b ≠ 47)))) = false →
          ∃ fs1, dispatch (router env) req fs
              = some ({ Status := lit " 201 Created", Headers := [], Body := [] }, fs1)
            ∧ fs1.read (env.pathJoin req.DirectoryPath
                (name.takeWhile (fun b => decide (b ≠ 47)))) = ReadResult.ok data)
      ∧ (fs.writeFails (env.pathJoin req.DirectoryPath
            (name.takeWhile (fun b => decide (b ≠ 47)))) = true →
          ∃ fs1, dispatch (router env) req fs
            = some ({ Status := statusOf 500, Headers := [], Body := [] }, fs1)) := by
  obtain ⟨k, hk, hlast⟩ := rdropWhile_nul req.Body
  have htrim : Trim req.Body [0] = req.Body.rdropWhile (fun b => decide (b ∈ [0])) := by
    rcases hb with hb | hb
    · exact Trim_nul req.Body hb
    · exact Trim_all_nul req.Body hb
  have h := filesHandler_post env req fs name hm hp
  rw [htrim] at h
  refine ⟨_, k, hk, hlast, ?_, ?_⟩
  · intro hw
    refine ⟨{ fs with read := (fun q =>
        if q = env.pathJoin req.DirectoryPath (name.takeWhile (fun b => decide (b ≠ 47))) then
          ReadResult.ok (req.Body.rdropWhile (fun b => decide (b ∈ [0])))
        else fs.others
          (env.pathJoin req.DirectoryPath (name.takeWhile (fun b => decide (b ≠ 47))))
          (req.Body.rdropWhile (fun b => decide (b ∈ [0]))) q) }, ?_, ?_⟩
    · rw [h, FS.write, hw]
      simp only [Bool.false_eq_true, if_false, statusOf_201]
    · simp
  · intro hw
    refine ⟨fs.failedWrite
      (env.pathJoin req.DirectoryPath (name.takeWhile (fun b => decide (b ≠ 47))))
      (req.Body.rdropWhile (fun b => decide (b ∈ [0]))), ?_⟩
    rw [h, FS.write, hw]
    simp only [if_true]

theorem post_file_witness :
    ∃ data k, [0, 0] = data ++ List.replicate k 0 ∧ data.getLast? ≠ some 0
      ∧ (srvFS.writeFails (demoEnv.pathJoin (lit "/srv")
            ((lit "f").takeWhile (fun b => decide (b ≠ 47)))) = false →
          ∃ fs1, dispatch (router demoEnv)
                { Method := lit "POST", Path := lit "/files/" ++ lit "f",
                  Version := lit "HTTP/1.1", Headers := [], Body := [0, 0],
                  DirectoryPath := lit "/srv" } srvFS
              = some ({ Status := lit " 201 Created", Headers := [], Body := [] }, fs1)
            ∧ fs1.read (demoEnv.pathJoin (lit "/srv")
                ((lit "f").takeWhile (fun b => decide (b ≠ 47)))) = ReadResult.ok data)
      ∧ (srvFS.writeFails (demoEnv.pathJoin (lit "/srv")
            ((lit "f").takeWhile (fun b => decide (b ≠ 47)))) = true →
          ∃ fs1, dispatch (router demoEnv)
              { Method := lit "POST", Path := lit "/files/" ++ lit "f",
                Version := lit "HTTP/1.1", Headers := [], Body := [0, 0],
                DirectoryPath := lit "/srv" } srvFS
            = some ({ Status := statusOf 500, Headers := [], Body := [] }, fs1)) :=
  post_file demoEnv
    { Method := lit "POST", Path := lit "/files/" ++ lit "f", Version := lit "HTTP/1.1",
      Headers := [], Body := [0, 0], DirectoryPath := lit "/srv" }
    srvFS (lit "f") rfl rfl (Or.inr (by decide))

/-! ## Writing a file and reading it back -/

/-- C14, counterexample: after a POST on "/files/f" with the body "abc" followed by a null
byte has returned 201, the GET on "/files/f" returns the body "abc" with Content-Length 3,
not the four bytes that were posted. -/
theorem post_then_get_trims :
    (dispatch (router demoEnv)
        { Method := lit "POST", Path := lit "/files/" ++ lit "f", Version := lit "HTTP/1.1",
          Headers := [], Body := lit "abc" ++ [0], DirectoryPath := lit "/srv" } emptyFS).bind
        (fun p => (dispatch (router demoEnv)
          { Method := lit "GET", Path := lit "/files/" ++ lit "f", Version := lit "HTTP/1.1",
            Headers := [], Body := [], DirectoryPath := lit "/srv" } p.2).map
              (fun q => (p.1.Status, q.1)))
      = some (lit " 201 Created",
              { Status := lit " 200 OK",
                Headers := [lit "Content-Type: application/octet-stream",
                            lit "Content-Length: 3"],
                Body := lit "abc" })
    ∧ lit "abc" ≠ lit "abc" ++ [0] := by
  constructor
  · decide
  · decide

/-- C14, as amended: for every serving directory, every name without "/" and every body `b`
that does not begin with a null byte, if the POST on "/files/" followed by the name returns
201 then the GET on the same path in the resulting file system returns 200 OK with, as body,
`b` without its trailing null bytes, and a Content-Length header with the byte length of that
body; the body is `b` itself when `b` does not end with a null byte. -/
theorem post_then_get (env : Env) (dir name b : GoString) (fs fs1 : FS) (r : HTTPResponse)
    (v1 v2 b2 : GoString) (h1 h2 : List GoString)
    (hname : 47 ∉ name) (hb : b.head? ≠ some 0)
    (hpost : dispatch (router env)
        { Method := lit "POST", Path := lit "/files/" ++ name, Version := v1, Headers := h1,
          Body := b, DirectoryPath := dir } fs = some (r, fs1))
    (h201 : r.Status = lit " 201 Created") :
    ∃ data k, b = data ++ List.replicate k 0 ∧ data.getLast? ≠ some 0
      ∧ dispatch (router env)
          { Method := lit "GET", Path := lit "/files/" ++ name, Version := v2, Headers := h2,
            Body := b2, DirectoryPath := dir } fs1
        = some ({ Status := lit " 200 OK",
                  Headers := [lit "Content-Type: application/octet-stream",
                              lit "Content-Length: " ++ itoa data.length],
                  Body := data }, fs1)
      ∧ (b.getLast? ≠ some 0 → data = b) := by
  obtain ⟨k, hk, hlast⟩ := rdropWhile_nul b
  have hp := filesHandler_post env
    { Method := lit "POST", Path := lit "/files/" ++ name, Version := v1, Headers := h1,
      Body := b, DirectoryPath := dir } fs name rfl rfl
  have hg := filesHandler_get env
    { Method := lit "GET", Path := lit "/files/" ++ name, Version := v2, Headers := h2,
      Body := b2, DirectoryPath := dir } fs1 name rfl rfl
  simp only [takeWhile_no_slash name hname] at hp hg
  rw [Trim_nul b hb] at hp
  rw [hp] at hpost
  refine ⟨b.rdropWhile (fun c => decide (c ∈ [0])), k, hk, hlast, ?_, ?_⟩
  · by_cases hw : fs.writeFails (env.pathJoin dir name) = true
    · simp only [FS.write, hw, if_true, Option.some.injEq, Prod.mk.injEq] at hpost
      rw [← hpost.1] at h201
      exact absurd h201 (by decide)
    · have hw1 : fs.writeFails (env.pathJoin dir name) = false := by simpa using hw
      simp only [FS.write, hw1, Bool.false_eq_true, if_false, Option.some.injEq,
        Prod.mk.injEq] at hpost
      have hfs := hpost.2
      have hread : fs1.read (env.pathJoin dir name)
          = ReadResult.ok (b.rdropWhile (fun c => decide (c ∈ [0]))) := by
        rw [← hfs]
        simp
      rw [hg, hread, statusOf_200]
  · intro hl
    rw [List.rdropWhile_eq_self_iff]
    intro hne
    simp only [List.mem_singleton, decide_eq_true_eq]
    intro e
    apply hl
    rw [List.getLast?_eq_getLast _ hne, e]

theorem post_then_get_witness :
    ∃ data k, lit "abc" ++ [0, 0] = data ++ List.replicate k 0 ∧ data.getLast? ≠ some 0
      ∧ dispatch (router demoEnv)
          { Method := lit "GET", Path := lit "/files/" ++ lit "f", Version := lit "HTTP/1.1",
            Headers := [], Body := [], DirectoryPath := lit "/srv" } oneFileFS
        = some ({ Status := lit " 200 OK",
                  Headers := [lit "Content-Type: application/octet-stream",
                              lit "Content-Length: " ++ itoa data.length],
                  Body := data }, oneFileFS)
      ∧ ((lit "abc" ++ [0, 0]).getLast? ≠ some 0 → data = lit "abc" ++ [0, 0]) :=
  post_then_get demoEnv (lit "/srv") (lit "f") (lit "abc" ++ [0, 0]) emptyFS oneFileFS
    { Status := lit " 201 Created" } (lit "HTTP/1.1") (lit "HTTP/1.1") [] [] []
    (by decide) (by decide) (by rfl) (by decide)

/-! ## Totality of the echo and user-agent handlers -/

theorem echoLoop_total (env : Env) (hs : List GoString) (body : GoString)
    (rh : List GoString) (hform : ∀ h ∈ hs, ∃ name value, h = name ++ lit ": " ++ value) :
    ∃ out, echoLoop env hs body rh = some out := by
  induction hs generalizing body rh with
  | nil => exact ⟨_, rfl⟩
  | cons h hs ih =>
    obtain ⟨name, value, e⟩ := hform h (List.mem_cons_self _ _)
    obtain ⟨v, hv⟩ := headerValue_isSome name value
    rw [← e] at hv
    unfold headerValue at hv
    have ih1 := fun b r => ih b r (fun x hx => hform x (List.mem_cons_of_mem _ hx))
    rw [echoLoop]
    simp only [hv]
    split
    · cases compress env body with
      | none => exact ⟨_, rfl⟩
      | some z => exact ih1 z _
    · exact ih1 body rh

theorem userAgentLoop_total (hs : List GoString)
    (hform : ∀ h ∈ hs, ∃ name value, h = name ++ lit ": " ++ value) :
    ∃ ua, userAgentLoop hs = some ua := by
  induction hs with
  | nil => exact ⟨_, rfl⟩
  | cons h hs ih =>
    obtain ⟨name, value, e⟩ := hform h (List.mem_cons_self _ _)
    obtain ⟨v, hv⟩ := headerValue_isSome name value
    rw [← e] at hv
    unfold headerValue at hv
    rw [userAgentLoop]
    split
    · exact ⟨v, hv⟩
    · exact ih (fun x hx => hform x (List.mem_cons_of_mem _ hx))

/-- C18: when every header of the request contains the separator ": ", the echo handler on a
path that starts with "/echo/" and the user-agent handler on the path "/user-agent" return a
response: the third part of the path split on "/" and the second part of each header split on
": " exist, so no index is out of range, and the router returns that response. -/
theorem echo_and_userAgent_total (env : Env) (req : HTTPRequest) (fs : FS)
    (hform : ∀ h ∈ req.Headers, ∃ name value, h = name ++ lit ": " ++ value) :
    (HasPrefix req.Path (lit "/echo/") = true →
      (∃ seg, (Split req.Path (lit "/"))[2]? = some seg)
      ∧ (∀ h ∈ req.Headers, ∃ v, (Split h (lit ": "))[1]? = some v)
      ∧ ∃ res, echoHandler env req = some res
          ∧ dispatch (router env) req fs = some (res, fs))
    ∧ (req.Path = lit "/user-agent" →
      (∀ h ∈ req.Headers, ∃ v, (Split h (lit ": "))[1]? = some v)
      ∧ ∃ res, userAgentHandler req = some res
          ∧ dispatch (router env) req fs = some (res, fs)) := by
  have hidx : ∀ h ∈ req.Headers, ∃ v, (Split h (lit ": "))[1]? = some v := by
    intro h hh
    obtain ⟨name, value, e⟩ := hform h hh
    obtain ⟨v, hv⟩ := headerValue_isSome name value
    rw [← e] at hv
    exact ⟨v, hv⟩
  constructor
  · intro hp
    obtain ⟨t, ht⟩ := (hasPrefix_iff _ _).1 hp
    have hseg := echo_path_segment t
    rw [← ht] at hseg
    refine ⟨⟨_, hseg⟩, hidx, ?_⟩
    obtain ⟨out, hout⟩ := echoLoop_total env req.Headers
      (t.takeWhile (fun b => decide (b ≠ 47))) [] hform
    have he : ∃ res, echoHandler env req = some res := by
      unfold echoHandler
      rw [hseg]
      simp only [Option.bind_eq_bind, Option.some_bind, hout]
      cases out with
      | returned r => exact ⟨r, rfl⟩
      | finished b rh => exact ⟨_, rfl⟩
    obtain ⟨res, hres⟩ := he
    refine ⟨res, hres, ?_⟩
    rw [router_echo env req fs hp, echoRouteHandler, hres]
    rfl
  · intro hp
    refine ⟨hidx, ?_⟩
    obtain ⟨ua, hua⟩ := userAgentLoop_total req.Headers hform
    have hu : userAgentHandler req
        = some { Status := statusOf 200,
                 Headers := [lit "Content-Type: text/plain",
                             lit "Content-Length: " ++ itoa ua.length],
                 Body := ua } := by
      unfold userAgentHandler
      rw [hua]
      rfl
    refine ⟨_, hu, ?_⟩
    rw [router_userAgent env req fs hp, userAgentRouteHandler, hu]
    rfl

theorem echo_and_userAgent_total_witness :
    ∃ res, userAgentHandler
        { Method := lit "GET", Path := lit "/user-agent", Version := lit "HTTP/1.1",
          Headers := [lit "host" ++ lit ": " ++ lit "x: y",
                      lit "user-agent" ++ lit ": " ++ lit "curl/8.0"],
          Body := [], DirectoryPath := [] } = some res
      ∧ dispatch (router demoEnv)
        { Method := lit "GET", Path := lit "/user-agent", Version := lit "HTTP/1.1",
          Headers := [lit "host" ++ lit ": " ++ lit "x: y",
                      lit "user-agent" ++ lit ": " ++ lit "curl/8.0"],
          Body := [], DirectoryPath := [] } emptyFS = some (res, emptyFS) :=
  ((echo_and_userAgent_total demoEnv
    { Method := lit "GET", Path := lit "/user-agent", Version := lit "HTTP/1.1",
      Headers := [lit "host" ++ lit ": " ++ lit "x: y",
                  lit "user-agent" ++ lit ": " ++ lit "curl/8.0"],
      Body := [], DirectoryPath := [] } emptyFS
    (by
      intro h hh
      simp only [List.mem_cons, List.mem_singleton, List.not_mem_nil, or_false] at hh
      rcases hh with e | e
      · exact ⟨lit "host", lit "x: y", e⟩
      · exact ⟨lit "user-agent", lit "curl/8.0", e⟩)).2 rfl).2

/-! ## Disjoint predicates and the order of the routes -/

theorem disjointOn_symm (path : GoString) (r1 r2 : Route) (h : disjointOn path r1 r2) :
    disjointOn path r2 r1 := fun hh => h ⟨hh.2, hh.1⟩

/-- In a table whose predicates are pairwise disjoint on the path, the route that accepts the
path handles the request, wherever it stands. -/
theorem dispatch_of_mem (routes : List Route) (req : HTTPRequest) (fs : FS) (r : Route)
    (hpw : routes.Pairwise (disjointOn req.Path)) (hr : r ∈ routes)
    (hacc : r.pathCondition req.Path = true) :
    dispatch routes req fs = r.handler req fs := by
  induction routes with
  | nil => simp at hr
  | cons q routes ih =>
    rw [List.pairwise_cons] at hpw
    rcases List.mem_cons.1 hr with e | e
    · rw [← e]
      exact dispatch_hit r routes req fs hacc
    · have hq : q.pathCondition req.Path = false := by
        cases hqv : q.pathCondition req.Path with
        | false => rfl
        | true => exact absurd ⟨hqv, hacc⟩ (hpw.1 r e)
      have := ih hpw.2 e
      simp [dispatch, hq, this]

theorem dispatch_all_false (routes : List Route) (req : HTTPRequest) (fs : FS)
    (hall : ∀ q ∈ routes, q.pathCondition req.Path = false) :
    dispatch routes req fs = some (notFoundResponse, fs) := by
  have := dispatch_skip routes [] req fs hall
  simpa [dispatch] using this

theorem path_predicates_exclusive (path : GoString) :
    (path = lit "/" → HasPrefix path (lit "/echo/") = false ∧ path ≠ lit "/user-agent"
      ∧ HasPrefix path (lit "/files/") = false)
    ∧ (HasPrefix path (lit "/echo/") = true → path ≠ lit "/user-agent"
      ∧ HasPrefix path (lit "/files/") = false)
    ∧ (path = lit "/user-agent" → HasPrefix path (lit "/files/") = false) := by
  refine ⟨?_, ?_, ?_⟩
  · intro h
    subst h
    decide
  · intro h
    obtain ⟨t, ht⟩ := (hasPrefix_iff _ _).1 h
    subst ht
    constructor
    · simp [lit]
    · simp [lit, HasPrefix, List.isPrefixOf]
  · intro h
    subst h
    decide

theorem router_pairwise (env : Env) (path : GoString) :
    (router env).Pairwise (disjointOn path) := by
  obtain ⟨h1, h2, h3⟩ := path_predicates_exclusive path
  simp only [router, List.pairwise_cons, List.mem_cons, List.mem_singleton, List.not_mem_nil,
    forall_eq_or_imp, forall_eq, disjointOn, decide_eq_true_eq]
  refine ⟨⟨?_, ?_, ?_, ?_⟩, ⟨?_, ?_, ?_⟩, ⟨?_, ?_⟩, ?_, List.Pairwise.nil⟩
  · rintro ⟨a, b⟩
    rw [(h1 a).1] at b
    exact absurd b (by decide)
  · rintro ⟨a, b⟩
    exact (h1 a).2.1 b
  · rintro ⟨a, b⟩
    rw [(h1 a).2.2] at b
    exact absurd b (by decide)
  · intro a ha
    exact absurd ha (by simp)
  · rintro ⟨a, b⟩
    exact (h2 a).1 b
  · rintro ⟨a, b⟩
    rw [(h2 a).2] at b
    exact absurd b (by decide)
  · intro a ha
    exact absurd ha (by simp)
  · rintro ⟨a, b⟩
    rw [h3 a] at b
    exact absurd b (by decide)
  · intro a ha
    exact absurd ha (by simp)
  · intro a ha
    exact absurd ha (by simp)

/-- C19: on every path at most one of the four registered predicates holds (path equal to
"/", path starting with "/echo/", path equal to "/user-agent", path starting with
"/files/"), and therefore every permutation of the route table gives the same response, and
the same file system, as the registered order. -/
theorem router_order_irrelevant (env : Env) :
    (∀ path : GoString,
      List.count true [decide (path = lit "/"), HasPrefix path (lit "/echo/"),
        decide (path = lit "/user-agent"), HasPrefix path (lit "/files/")] ≤ 1)
    ∧ (∀ path : GoString, (router env).Pairwise (disjointOn path))
    ∧ (∀ (routes : List Route) (req : HTTPRequest) (fs : FS), routes.Perm (router env) →
      dispatch routes req fs = dispatch (router env) req fs) := by
  refine ⟨?_, router_pairwise env, ?_⟩
  · intro path
    obtain ⟨h1, h2, h3⟩ := path_predicates_exclusive path
    by_cases a : path = lit "/"
    · have := h1 a
      simp [a, this.1, this.2.2]
      decide
    · by_cases b : HasPrefix path (lit "/echo/") = true
      · have := h2 b
        simp [a, b, this.1, this.2]
      · by_cases c : path = lit "/user-agent"
        · have := h3 c
          simp [this, c]
          decide
        · have b1 : HasPrefix path (lit "/echo/") = false := by simpa using b
          simp only [a, b1, c, decide_False]
          cases HasPrefix path (lit "/files/") <;> decide
  · intro routes req fs hperm
    have hpw : routes.Pairwise (disjointOn req.Path) :=
      hperm.symm.pairwise (router_pairwise env req.Path)
        (fun {x y} h => disjointOn_symm req.Path x y h)
    by_cases hex : ∃ r ∈ router env, r.pathCondition req.Path = true
    · obtain ⟨r, hr, hacc⟩ := hex
      rw [dispatch_of_mem routes req fs r hpw (hperm.mem_iff.2 hr) hacc,
        dispatch_of_mem (router env) req fs r (router_pairwise env req.Path) hr hacc]
    · have hall : ∀ q ∈ router env, q.pathCondition req.Path = false := by
        intro q hq
        cases hqv : q.pathCondition req.Path with
        | false => rfl
        | true => exact absurd ⟨q, hq, hqv⟩ hex
      rw [dispatch_all_false routes req fs (fun q hq => hall q (hperm.mem_iff.1 hq)),
        dispatch_all_false (router env) req fs hall]

theorem router_order_irrelevant_witness :
    dispatch (router demoEnv).reverse
        { Method := lit "GET", Path := lit "/user-agent", Version := lit "HTTP/1.1",
          Headers := [lit "user-agent: curl/8.0"], Body := [], DirectoryPath := [] } emptyFS
      = dispatch (router demoEnv)
        { Method := lit "GET", Path := lit "/user-agent", Version := lit "HTTP/1.1",
          Headers := [lit "user-agent: curl/8.0"], Body := [], DirectoryPath := [] } emptyFS :=
  (router_order_irrelevant demoEnv).2.2 _ _ emptyFS (List.reverse_perm _)

/-! ## When the wire parser returns -/

theorem splitGo_one_cons (sep cur : GoString) (b : Nat) (rest : GoString) :
    splitGo sep 1 cur (b :: rest) = splitGo sep 0 cur rest := by
  rw [splitGo]

theorem crlf_prefix_cases (b : Nat) (rest : GoString)
    (h : CRLF.isPrefixOf (b :: rest) = true) :
    b = 13 ∧ ∃ rest1, rest = 10 :: rest1 := by
  cases rest with
  | nil =>
    rw [CRLF_eq] at h
    simp [List.isPrefixOf] at h
  | cons c rest1 =>
    rw [CRLF_eq] at h
    simp only [List.isPrefixOf, Bool.and_true, Bool.and_eq_true, beq_iff_eq] at h
    exact ⟨h.1.symm, rest1, by rw [h.2]⟩

/-- The sections of a buffer: one more than its occurrences of CR LF, the first being the
text before the first occurrence. -/
theorem splitGo_crlf_shape (s : GoString) :
    (∀ cur, (splitGo CRLF 0 cur s).length = countCRLF s + 1
        ∧ (splitGo CRLF 0 cur s)[0]? = some (cur ++ beforeCRLF s))
    ∧ (∀ cur, (splitGo CRLF 1 cur s).length = countCRLF s.tail + 1) := by
  induction s with
  | nil =>
    constructor
    · intro cur
      simp [splitGo, countCRLF, beforeCRLF]
    · intro cur
      simp [splitGo, countCRLF]
  | cons b rest ih =>
    constructor
    · intro cur
      rw [splitGo_zero_cons]
      by_cases hp : CRLF.isPrefixOf (b :: rest) = true
      · obtain ⟨hb, rest1, hr⟩ := crlf_prefix_cases b rest hp
        have h1 := ih.2 []
        have hlen : CRLF.length - 1 = 1 := rfl
        rw [if_pos hp, hlen]
        have hc : countCRLF rest = countCRLF rest.tail := by
          rw [hr]
          cases rest1 <;> simp [countCRLF, CRLF_eq, List.isPrefixOf]
        simp only [List.length_cons, h1, countCRLF, beforeCRLF, hp, if_true, hc,
          List.getElem?_cons_zero, List.append_nil, and_true]
        omega
      · have hp1 : CRLF.isPrefixOf (b :: rest) = false := Bool.eq_false_iff.2 hp
        have h0 := ih.1 (cur ++ [b])
        rw [if_neg hp]
        simp only [countCRLF, beforeCRLF, hp1, Bool.false_eq_true, if_false, Nat.zero_add]
        refine ⟨h0.1, ?_⟩
        rw [h0.2]
        simp
    · intro cur
      rw [splitGo_one_cons]
      exact (ih.1 cur).1

theorem Split_crlf_shape (buf : GoString) :
    (Split buf CRLF).length = countCRLF buf + 1
      ∧ (Split buf CRLF)[0]? = some (beforeCRLF buf) := by
  have := (splitGo_crlf_shape buf).1 []
  simpa [Split] using this

/-- What `parseRequest` does once the number of sections and the first section are known. -/
theorem parseRequest_isSome_iff (env : Env) (buf dir : GoString) :
    (∃ req, parseRequest env buf dir = some req)
      ↔ 3 ≤ (Split buf CRLF).length ∧ 3 ≤ (Fields (beforeCRLF buf)).length := by
  obtain ⟨hlen, hhead⟩ := Split_crlf_shape buf
  have hpos : (Split buf CRLF).length - 1 < (Split buf CRLF).length := by omega
  have hlast : (Split buf CRLF)[(Split buf CRLF).length - 1]?
      = some ((Split buf CRLF)[(Split buf CRLF).length - 1]) := List.getElem?_eq_getElem hpos
  unfold parseRequest
  simp only [hhead, hlast, Option.bind_eq_bind, Option.some_bind]
  by_cases h3 : (Split buf CRLF).length < 3
  · simp only [h3, if_true, Option.none_bind]
    constructor
    · rintro ⟨req, hreq⟩
      exact absurd hreq (by simp)
    · rintro ⟨h, _⟩
      omega
  · simp only [h3, if_false, Option.some_bind]
    match hf : Fields (beforeCRLF buf) with
    | [] => simp
    | [a] => simp
    | [a, b] => simp
    | a :: b :: c :: more =>
      simp only [List.getElem?_cons_zero, List.getElem?_cons_succ, Option.some_bind,
        List.length_cons]
      constructor
      · intro _
        constructor <;> omega
      · intro _
        exact ⟨_, rfl⟩

/-- C17: `parseRequest` returns a request exactly when the buffer holds at least two
occurrences of CR LF and the text before the first of them has at least three fields. The
buffer splits into one section more than it has occurrences, the first section being that
text, so under the condition `sections[0]`, `sections[len-1]`, `sections[1 : len-2]` and
`params[0]`, `params[1]`, `params[2]` are all in range; with fewer than two occurrences or
fewer than three fields the parser panics. -/
theorem parseRequest_total_iff (env : Env) (buf dir : GoString) :
    ((Split buf CRLF).length = countCRLF buf + 1
      ∧ (Split buf CRLF)[0]? = some (beforeCRLF buf))
    ∧ (2 ≤ countCRLF buf → 3 ≤ (Fields (beforeCRLF buf)).length →
        (∃ last, (Split buf CRLF)[(Split buf CRLF).length - 1]? = some last)
        ∧ 1 ≤ (Split buf CRLF).length - 2 ∧ (Split buf CRLF).length - 2 ≤ (Split buf CRLF).length
        ∧ (∃ m p v, (Fields (beforeCRLF buf))[0]? = some m
            ∧ (Fields (beforeCRLF buf))[1]? = some p ∧ (Fields (beforeCRLF buf))[2]? = some v)
        ∧ ∃ req, parseRequest env buf dir = some req)
    ∧ (countCRLF buf < 2 ∨ (Fields (beforeCRLF buf)).length < 3 →
        parseRequest env buf dir = none) := by
  have hshape := Split_crlf_shape buf
  have hiff := parseRequest_isSome_iff env buf dir
  refine ⟨hshape, ?_, ?_⟩
  · intro h2 h3
    have hl : 3 ≤ (Split buf CRLF).length := by omega
    refine ⟨⟨_, List.getElem?_eq_getElem (by omega)⟩, by omega, by omega, ?_,
      hiff.2 ⟨hl, h3⟩⟩
    match hf : Fields (beforeCRLF buf), h3 with
    | a :: b :: c :: more, _ => exact ⟨a, b, c, by simp, by simp, by simp⟩
  · intro h
    cases hp : parseRequest env buf dir with
    | none => rfl
    | some req =>
      have := hiff.1 ⟨req, hp⟩
      omega

theorem parseRequest_total_iff_witness :
    (∃ last, (Split (lit "GET / HTTP/1.1\r\n\r\n") CRLF)[
        (Split (lit "GET / HTTP/1.1\r\n\r\n") CRLF).length - 1]? = some last)
    ∧ 1 ≤ (Split (lit "GET / HTTP/1.1\r\n\r\n") CRLF).length - 2
    ∧ (Split (lit "GET / HTTP/1.1\r\n\r\n") CRLF).length - 2
        ≤ (Split (lit "GET / HTTP/1.1\r\n\r\n") CRLF).length
    ∧ (∃ m p v, (Fields (beforeCRLF (lit "GET / HTTP/1.1\r\n\r\n")))[0]? = some m
        ∧ (Fields (beforeCRLF (lit "GET / HTTP/1.1\r\n\r\n")))[1]? = some p
        ∧ (Fields (beforeCRLF (lit "GET / HTTP/1.1\r\n\r\n")))[2]? = some v)
    ∧ ∃ req, parseRequest demoEnv (lit "GET / HTTP/1.1\r\n\r\n") [] = some req :=
  (parseRequest_total_iff demoEnv (lit "GET / HTTP/1.1\r\n\r\n") []).2.1
    (by decide) (by decide)

/-! ## Invariants of a parsed request -/

/-- A string with a CR LF is its text before the first one, the CR LF, and a rest. -/
theorem hasCRLF_decompose (s : GoString) (h : hasCRLF s = true) :
    ∃ a rest, s = a ++ CRLF ++ rest ∧ hasCRLF a = false := by
  induction s with
  | nil => simp [hasCRLF] at h
  | cons b s ih =>
    by_cases hp : CRLF.isPrefixOf (b :: s) = true
    · obtain ⟨hb, rest1, hr⟩ := crlf_prefix_cases b s hp
      exact ⟨[], rest1, by rw [hb, hr]; rfl, rfl⟩
    · have hp1 : CRLF.isPrefixOf (b :: s) = false := Bool.eq_false_iff.2 hp
      simp only [hasCRLF, hp1, Bool.false_or] at h
      obtain ⟨a, rest, e, ha⟩ := ih h
      refine ⟨b :: a, rest, by rw [e]; rfl, ?_⟩
      simp only [hasCRLF, Bool.or_eq_false_iff]
      refine ⟨?_, ha⟩
      rw [e] at hp1
      rw [CRLF_eq] at hp1 ⊢
      cases a with
      | nil => simp [List.isPrefixOf]
      | cons c a => simpa [List.isPrefixOf] using hp1

/-- No section of a buffer contains CR LF, and the last section is the buffer itself when
there is one section, the text after a CR LF otherwise. -/
theorem Split_crlf_sections (n : Nat) :
    ∀ s : GoString, s.length = n →
      (∀ seg ∈ Split s CRLF, hasCRLF seg = false)
      ∧ ∀ body, (Split s CRLF).getLast? = some body →
          ((Split s CRLF).length = 1 ∧ s = body) ∨ ∃ pre, s = pre ++ CRLF ++ body := by
  induction n using Nat.strong_induction_on with
  | _ n ih =>
    intro s hn
    cases hc : hasCRLF s with
    | false =>
      rw [Split_crlf_last s hc]
      constructor
      · intro seg hseg
        rw [List.mem_singleton.1 hseg]
        exact hc
      · intro body hb
        simp only [List.getLast?_singleton, Option.some.injEq] at hb
        exact Or.inl ⟨rfl, hb⟩
    | true =>
      obtain ⟨a, rest, e, ha⟩ := hasCRLF_decompose s hc
      have hlt : rest.length < n := by
        rw [← hn, e]
        simp [CRLF_eq]
        omega
      obtain ⟨ih1, ih2⟩ := ih rest.length hlt rest rfl
      rw [e, Split_crlf_seg a rest ha]
      constructor
      · intro seg hseg
        rcases List.mem_cons.1 hseg with h | h
        · rw [h]
          exact ha
        · exact ih1 seg h
      · intro body hb
        right
        have hne : Split rest CRLF ≠ [] := by
          intro h0
          have := (Split_crlf_shape rest).1
          rw [h0] at this
          simp at this
        have hb1 : (Split rest CRLF).getLast? = some body := by
          cases hS : Split rest CRLF with
          | nil => exact absurd hS hne
          | cons x l =>
            rw [hS, List.getLast?_cons_cons] at hb
            exact hb
        rcases ih2 body hb1 with ⟨_, h⟩ | ⟨pre, h⟩
        · exact ⟨a, by rw [h]⟩
        · exact ⟨a ++ CRLF ++ pre, by rw [h]; simp [List.append_assoc]⟩

theorem hasUpper_map_lower (s : GoString) : hasUpper (s.map lowerByte) = false := by
  unfold hasUpper
  rw [List.any_eq_false]
  intro b hb
  obtain ⟨c, _, hc⟩ := List.mem_map.1 hb
  rw [← hc]
  unfold lowerByte
  split <;> simp <;> omega

theorem crlf_prefix_map_lower (b : Nat) (s : GoString) :
    CRLF.isPrefixOf (lowerByte b :: s.map lowerByte) = CRLF.isPrefixOf (b :: s) := by
  have h13 : ∀ c, (13 == lowerByte c) = (13 == c) := by
    intro c
    rw [Bool.eq_iff_iff, beq_iff_eq, beq_iff_eq]
    unfold lowerByte
    split <;> omega
  have h10 : ∀ c, (10 == lowerByte c) = (10 == c) := by
    intro c
    rw [Bool.eq_iff_iff, beq_iff_eq, beq_iff_eq]
    unfold lowerByte
    split <;> omega
  rw [CRLF_eq]
  cases s with
  | nil => simp [List.isPrefixOf]
  | cons c s => simp [List.isPrefixOf, h13, h10]

theorem hasCRLF_map_lower (s : GoString) : hasCRLF (s.map lowerByte) = hasCRLF s := by
  induction s with
  | nil => rfl
  | cons b s ih =>
    simp only [List.map_cons, hasCRLF, crlf_prefix_map_lower, ih]

/-- Lower-casing keeps a header free of CR LF and leaves no upper-case ASCII letter, given
these two properties of the Unicode mapping of the library. -/
theorem ToLower_props (env : Env)
    (hlib1 : ∀ s, hasCRLF s = false → hasCRLF (env.mapToLower s) = false)
    (hlib2 : ∀ s, hasUpper (env.mapToLower s) = false)
    (s : GoString) (hs : hasCRLF s = false) :
    hasCRLF (ToLower env s) = false ∧ hasUpper (ToLower env s) = false := by
  unfold ToLower
  split
  · exact ⟨by rw [hasCRLF_map_lower, hs], hasUpper_map_lower s⟩
  · exact ⟨hlib1 s hs, hlib2 s⟩

/-- The body and the headers of a returned request in terms of the sections. -/
theorem parseRequest_some (env : Env) (buf dir : GoString) (req : HTTPRequest)
    (h : parseRequest env buf dir = some req) :
    3 ≤ (Split buf CRLF).length
      ∧ (Split buf CRLF).getLast? = some req.Body
      ∧ req.Headers
          = (((Split buf CRLF).take ((Split buf CRLF).length - 2)).drop 1).map (ToLower env) := by
  obtain ⟨hlen, hhead⟩ := Split_crlf_shape buf
  have hpos : (Split buf CRLF).length - 1 < (Split buf CRLF).length := by omega
  have hlast : (Split buf CRLF)[(Split buf CRLF).length - 1]?
      = some ((Split buf CRLF)[(Split buf CRLF).length - 1]) := List.getElem?_eq_getElem hpos
  have hgl : (Split buf CRLF).getLast?
      = some ((Split buf CRLF)[(Split buf CRLF).length - 1]) := by
    rw [List.getLast?_eq_getElem?, hlast]
  unfold parseRequest at h
  simp only [hhead, hlast, Option.bind_eq_bind, Option.some_bind] at h
  by_cases h3 : (Split buf CRLF).length < 3
  · simp [h3] at h
  · simp only [h3, if_false, Option.some_bind] at h
    refine ⟨by omega, ?_⟩
    match hf : Fields (beforeCRLF buf) with
    | [] => simp [hf] at h
    | [a] => simp [hf] at h
    | [a, b] => simp [hf] at h
    | a :: b :: c :: more =>
      simp only [hf, List.getElem?_cons_zero, List.getElem?_cons_succ, Option.some_bind,
        Option.some.injEq] at h
      rw [← h, hgl]
      exact ⟨rfl, rfl⟩

/-- A buffer is its sections put together again with CR LF after each but the last. -/
theorem Split_crlf_unsplit (n : Nat) :
    ∀ s : GoString, s.length = n → ∀ (segs : List GoString) (last : GoString),
      Split s CRLF = segs ++ [last] → s = (segs.map (fun x => x ++ CRLF)).flatten ++ last := by
  induction n using Nat.strong_induction_on with
  | _ n ih =>
    intro s hn segs last hS
    cases hc : hasCRLF s with
    | false =>
      rw [Split_crlf_last s hc] at hS
      cases segs with
      | nil =>
        simp only [List.nil_append, List.cons.injEq, and_true] at hS
        simp [hS]
      | cons x segs =>
        have := congrArg List.length hS
        simp at this
    | true =>
      obtain ⟨a, rest, e, ha⟩ := hasCRLF_decompose s hc
      have hlt : rest.length < n := by
        rw [← hn, e]
        simp [CRLF_eq]
        omega
      rw [e, Split_crlf_seg a rest ha] at hS
      cases segs with
      | nil =>
        have hl := congrArg List.length hS
        have hpos := (Split_crlf_shape rest).1
        rw [List.nil_append, List.length_cons, List.length_singleton, hpos] at hl
        omega
      | cons x segs =>
        simp only [List.cons_append, List.cons.injEq] at hS
        have := ih rest.length hlt rest rfl segs last hS.2
        rw [e, ← hS.1]
        conv_lhs => rw [this]
        simp [List.append_assoc]

/-- A list of at least three sections is its first, the ones in between, and its last two. -/
theorem sections_shape (S : List GoString) (body : GoString) (h3 : 3 ≤ S.length)
    (hlast : S.getLast? = some body) :
    ∃ line skipped, S = line :: (((S.take (S.length - 2)).drop 1) ++ [skipped, body]) := by
  cases S with
  | nil => simp at h3
  | cons line rest =>
    induction rest using List.reverseRecOn with
    | nil => simp at h3
    | append_singleton rest1 y _ =>
      induction rest1 using List.reverseRecOn with
      | nil => simp at h3
      | append_singleton mid x _ =>
        have hy : y = body := by
          have : (line :: (mid ++ [x] ++ [y])).getLast? = some y := by
            rw [← List.cons_append, List.getLast?_concat]
          rw [this] at hlast
          exact Option.some.inj hlast
        refine ⟨line, x, ?_⟩
        have hlen : (line :: (mid ++ [x] ++ [y])).length - 2 = mid.length + 1 := by
          simp
        rw [hlen, hy]
        have ht : (line :: (mid ++ [x] ++ [body])).take (mid.length + 1) = line :: mid := by
          rw [List.take_succ_cons, List.append_assoc, List.take_left']
          rfl
        rw [ht]
        simp

/-- C20, counterexample: in the buffer whose body is "body", CR LF, "tail", the body stored is
"tail" and the headers stored are "host: x" and the empty string of the blank line; the part
"body", which stands before the last CR LF, is stored neither as a header nor anywhere else. -/
theorem embedded_crlf_part_is_dropped :
    parseRequest demoEnv (lit "POST /files/f HTTP/1.1\r\nHost: X\r\n\r\nbody\r\ntail")
        (lit "/srv")
      = some { Method := lit "POST", Path := lit "/files/f", Version := lit "HTTP/1.1",
               Headers := [lit "host: x", []], Body := lit "tail",
               DirectoryPath := lit "/srv" }
    ∧ lit "body" ∉ [lit "host: x", []] := by
  constructor
  · decide
  · decide

/-- C20, as amended: in every request that `parseRequest` returns, neither a stored header
nor the body contains CR LF, no stored header contains an upper-case ASCII letter, and the
body is the part of the buffer after its last CR LF. The buffer is a first line, then parts
each followed by CR LF, then one more part, CR LF and the body, none of them containing
CR LF: the parts in between are what is stored as headers, lower-cased and in order, and the
part just before the last CR LF is not stored. For a header with a byte outside ASCII this
rests on two properties of the Unicode mapping of the library: it creates no CR LF and
returns no ASCII capital. -/
theorem parsed_request_invariant (env : Env) (buf dir : GoString) (req : HTTPRequest)
    (hlib1 : ∀ s, hasCRLF s = false → hasCRLF (env.mapToLower s) = false)
    (hlib2 : ∀ s, hasUpper (env.mapToLower s) = false)
    (h : parseRequest env buf dir = some req) :
    (∀ hd ∈ req.Headers, hasCRLF hd = false ∧ hasUpper hd = false)
    ∧ hasCRLF req.Body = false
    ∧ (∃ pre, buf = pre ++ CRLF ++ req.Body)
    ∧ ∃ (line : GoString) (parts : List GoString) (skipped : GoString),
        hasCRLF line = false ∧ (∀ s ∈ parts, hasCRLF s = false) ∧ hasCRLF skipped = false
        ∧ buf = line ++ CRLF ++ (parts.map (fun s => s ++ CRLF)).flatten
                  ++ skipped ++ CRLF ++ req.Body
        ∧ req.Headers = parts.map (ToLower env) := by
  obtain ⟨h3, hbody, hhdr⟩ := parseRequest_some env buf dir req h
  obtain ⟨hseg, hlast⟩ := Split_crlf_sections buf.length buf rfl
  refine ⟨?_, ?_, ?_, ?_⟩
  · intro hd hmem
    rw [hhdr] at hmem
    obtain ⟨sec, hsec, e⟩ := List.mem_map.1 hmem
    have hsec1 : sec ∈ Split buf CRLF :=
      List.mem_of_mem_take (List.mem_of_mem_drop hsec)
    rw [← e]
    exact ToLower_props env hlib1 hlib2 sec (hseg sec hsec1)
  · exact hseg req.Body (List.mem_of_getLast?_eq_some hbody)
  · rcases hlast req.Body hbody with ⟨h1, _⟩ | hpre
    · omega
    · exact hpre
  · obtain ⟨line, skipped, hS⟩ := sections_shape (Split buf CRLF) req.Body h3 hbody
    have hmemS : ∀ x, x ∈ line :: (((Split buf CRLF).take ((Split buf CRLF).length - 2)).drop 1
        ++ [skipped, req.Body]) → hasCRLF x = false := by
      intro x hx
      rw [← hS] at hx
      exact hseg x hx
    refine ⟨line, ((Split buf CRLF).take ((Split buf CRLF).length - 2)).drop 1, skipped,
      hmemS line (List.mem_cons_self _ _), ?_, ?_, ?_, hhdr⟩
    · intro s hs
      exact hmemS s (List.mem_cons_of_mem _ (List.mem_append_left _ hs))
    · exact hmemS skipped (List.mem_cons_of_mem _ (List.mem_append_right _ (by simp)))
    · have hS2 : Split buf CRLF
          = (line :: (((Split buf CRLF).take ((Split buf CRLF).length - 2)).drop 1
              ++ [skipped])) ++ [req.Body] := by
        conv_lhs => rw [hS]
        simp
      have := Split_crlf_unsplit buf.length buf rfl _ _ hS2
      conv_lhs => rw [this]
      simp [List.append_assoc]

theorem parsed_request_invariant_witness :
    (∀ hd ∈ [lit "host: x", lit "x-note: a", []], hasCRLF hd = false ∧ hasUpper hd = false)
    ∧ hasCRLF (lit "tail") = false
    ∧ (∃ pre, lit "POST /files/f HTTP/1.1\r\nHost: X\r\nX-Note: A\r\n\r\nbody\r\ntail"
        = pre ++ CRLF ++ lit "tail")
    ∧ ∃ (line : GoString) (parts : List GoString) (skipped : GoString),
        hasCRLF line = false ∧ (∀ s ∈ parts, hasCRLF s = false) ∧ hasCRLF skipped = false
        ∧ lit "POST /files/f HTTP/1.1\r\nHost: X\r\nX-Note: A\r\n\r\nbody\r\ntail"
            = line ++ CRLF ++ (parts.map (fun s => s ++ CRLF)).flatten
                ++ skipped ++ CRLF ++ lit "tail"
        ∧ [lit "host: x", lit "x-note: a", []] = parts.map (ToLower demoEnv) :=
  parsed_request_invariant demoEnv
    (lit "POST /files/f HTTP/1.1\r\nHost: X\r\nX-Note: A\r\n\r\nbody\r\ntail") (lit "/srv")
    { Method := lit "POST", Path := lit "/files/f", Version := lit "HTTP/1.1",
      Headers := [lit "host: x", lit "x-note: a", []], Body := lit "tail",
      DirectoryPath := lit "/srv" }
    (fun s hs => by
      show hasCRLF (s.map lowerByte) = false
      rw [hasCRLF_map_lower, hs])
    (fun s => hasUpper_map_lower s)
    (by decide)

/-! ## The echo handler on a header value that contains ": " -/

/-- C8, failing input: the header "accept-encoding: gzip: z" has the name "accept-encoding"
and the value "gzip: z", whose comma-space separated list is the single part "gzip: z" and
does not contain "gzip", so it is no accept-encoding entry listing gzip. `echoHandler` takes
the text between the first and the second ": " for the value, finds "gzip" there, compresses
the body and adds the header Content-Encoding: gzip. -/
theorem echo_compresses_on_cut_value (env : Env) (t z : GoString) (ht : 47 ∉ t)
    (hz : env.gzip t = some z) :
    echoHandler env
        { Method := lit "GET", Path := lit "/echo/" ++ t, Version := lit "HTTP/1.1",
          Headers := [lit "accept-encoding: gzip: z"], Body := [], DirectoryPath := [] }
      = some { Status := lit " 200 OK",
               Headers := [lit "Content-Encoding: gzip", lit "Content-Type: text/plain",
                           lit "Content-Length: " ++ itoa z.length],
               Body := z }
    ∧ lit "accept-encoding: gzip: z" = lit "accept-encoding" ++ lit ": " ++ lit "gzip: z"
    ∧ nameOf (lit "accept-encoding: gzip: z") = lit "accept-encoding"
    ∧ valueOf (lit "accept-encoding: gzip: z") = some (lit "gzip: z")
    ∧ Split (lit "gzip: z") (lit ", ") = [lit "gzip: z"]
    ∧ listsGzip (lit "accept-encoding: gzip: z") = false := by
  refine ⟨?_, by decide, by decide, by decide, by decide, by decide⟩
  have hg : loopCompresses (lit "accept-encoding: gzip: z") = true := by decide
  unfold echoHandler
  simp only [echo_path_segment, takeWhile_no_slash t ht, Option.bind_eq_bind,
    Option.some_bind]
  rw [echoLoop_gzip_step env _ _ t z [] hg hz]
  simp [echoLoop, statusOf_200]

theorem echo_compresses_on_cut_value_witness :
    echoHandler demoEnv
        { Method := lit "GET", Path := lit "/echo/" ++ lit "abc", Version := lit "HTTP/1.1",
          Headers := [lit "accept-encoding: gzip: z"], Body := [], DirectoryPath := [] }
      = some { Status := lit " 200 OK",
               Headers := [lit "Content-Encoding: gzip", lit "Content-Type: text/plain",
                           lit "Content-Length: " ++ itoa (0x1f :: 0x8b :: lit "abc").length],
               Body := 0x1f :: 0x8b :: lit "abc" }
    ∧ lit "accept-encoding: gzip: z" = lit "accept-encoding" ++ lit ": " ++ lit "gzip: z"
    ∧ nameOf (lit "accept-encoding: gzip: z") = lit "accept-encoding"
    ∧ valueOf (lit "accept-encoding: gzip: z") = some (lit "gzip: z")
    ∧ Split (lit "gzip: z") (lit ", ") = [lit "gzip: z"]
    ∧ listsGzip (lit "accept-encoding: gzip: z") = false :=
  echo_compresses_on_cut_value demoEnv (lit "abc") (0x1f :: 0x8b :: lit "abc") (by decide) rfl

end HttpServer
